import Mathlib

/-!
# The user-space disk emulator `ddriver` (fs/rfs/user_ddriver/ddriver.cpp)

A shallow embedding of the emulated block device.

* The global `struct ddriver disk` is the record `ddriver`; its `int` fields are
  integers, and every `int` increment or conversion is wrapped by `toInt32`
  (two's complement, 32 bits).
* The driver talks to the host through `lseek`, `read`, `write` and `usleep`.
  The three file calls are the fields of `Sys`, so the driver functions are
  written once for every host behaviour; `posix` is the host model used when a
  property depends on what the backing file holds.
* `usleep` is recorded in `Machine.slept`, the total number of microseconds the
  caller has been blocked.
* The text sent to stdout and to the diagnostic log by `user_alert` and
  `user_panic` is not part of the state.
* `ddriver_open` is a function of what the host answers to its calls
  (`OpenEnv`); `ddriver_close` is written over the host's `close` and `fclose`,
  with `Handles` as the host model of the two handles of a session.
-/

namespace Ddriver

/-! ## Constants -/

/-- The macro `CONFIG_DISK_SZ`: `4 * 1024 * 1024`. -/
def CONFIG_DISK_SZ : Int := 4 * 1024 * 1024

/-- The macro `CONFIG_BLOCK_SZ`. -/
def CONFIG_BLOCK_SZ : Int := 512

/-- The errno value `EIO` of errno.h. -/
def EIO_val : Int := 5

/-- The errno value `EINVAL` of errno.h. -/
def EINVAL_val : Int := 22

/-- The `whence` value `SEEK_SET` of unistd.h. -/
def SEEK_SET : Int := 0

/-- The `whence` value `SEEK_CUR` of unistd.h. -/
def SEEK_CUR : Int := 1

/-- The `whence` value `SEEK_END` of unistd.h. -/
def SEEK_END : Int := 2

/-- Largest value of the 64-bit `off_t`. -/
def OFF_MAX : Int := 9223372036854775807

/-- Largest value of a 32-bit `int`. -/
def INT_MAX : Int := 2147483647

/-- Conversion of an integer value to a 32-bit `int` (two's complement wrap). -/
def toInt32 (x : Int) : Int := (x + 2147483648) % 4294967296 - 2147483648

/-- Conversion of an `int` to the 32-bit unsigned `useconds_t` taken by `usleep`. -/
def toUInt32 (x : Int) : Nat := (x % 4294967296).toNat

/-! ## Data model -/

/-- The record `struct ddriver`. -/
structure ddriver where
  ddriver_fd : Int
  read_cnt : Int
  write_cnt : Int
  seek_cnt : Int
  read_lat : Int
  write_lat : Int
  seek_lat : Int
  track_num : Int
  major_num : Int
  layout_size : Int
  iounit_size : Int

/-- The global `disk` with its static initialiser (`ddriver_fd` is left zero by it). -/
def disk : ddriver :=
  { ddriver_fd := 0
    read_cnt := 0
    write_cnt := 0
    seek_cnt := 0
    read_lat := 2
    write_lat := 1
    seek_lat := 4
    track_num := 100
    major_num := 0
    layout_size := CONFIG_DISK_SZ
    iounit_size := CONFIG_BLOCK_SZ }

/-- Memory behind a `char *`: the byte at each index from the pointer on. -/
abbrev Buf := Nat → Nat

/-- The host file calls the driver uses, over a host state `σ`.
Each takes the descriptor first and returns the new host state and the call's
return value; `read` also returns the caller's buffer as the call leaves it. -/
structure Sys (σ : Type) where
  lseek : σ → Int → Int → Int → σ × Int
  read : σ → Int → Buf → Nat → σ × Buf × Int
  write : σ → Int → Buf → Nat → σ × Int

/-- Everything the driver functions can change: the global `disk`, the host
state, and the microseconds spent in `usleep` so far. -/
structure Machine (σ : Type) where
  disk : ddriver
  os : σ
  slept : Nat

/-- The libc call `usleep(us)`: block the caller for `us` microseconds. -/
def usleep {σ : Type} (m : Machine σ) (us : Int) : Machine σ :=
  { m with slept := m.slept + toUInt32 us }

/-! ## Macro functions -/

/-- The macro `IS_ADDR_ALIGN(addr)`: `addr % CONFIG_BLOCK_SZ == 0`, with the
remainder of C (truncated division, sign of the dividend). -/
def IS_ADDR_ALIGN (addr : Int) : Bool := Int.tmod addr CONFIG_BLOCK_SZ == 0

/-- The macro `INC_READCNT(disk)`: `disk.read_cnt++`. -/
def INC_READCNT {σ : Type} (m : Machine σ) : Machine σ :=
  { m with disk := { m.disk with read_cnt := toInt32 (m.disk.read_cnt + 1) } }

/-- The macro `INC_WRITECNT(disk)`: `disk.write_cnt++`. -/
def INC_WRITECNT {σ : Type} (m : Machine σ) : Machine σ :=
  { m with disk := { m.disk with write_cnt := toInt32 (m.disk.write_cnt + 1) } }

/-- The macro `INC_SEEKCNT(disk)`: `disk.seek_cnt++`. -/
def INC_SEEKCNT {σ : Type} (m : Machine σ) : Machine σ :=
  { m with disk := { m.disk with seek_cnt := toInt32 (m.disk.seek_cnt + 1) } }

/-- The macro `RW_DELAY(disk, read)`: `usleep(disk.read_lat * 1000)`. -/
def RW_DELAY_read {σ : Type} (m : Machine σ) : Machine σ :=
  usleep m (toInt32 (m.disk.read_lat * 1000))

/-- The macro `RW_DELAY(disk, write)`: `usleep(disk.write_lat * 1000)`. -/
def RW_DELAY_write {σ : Type} (m : Machine σ) : Machine σ :=
  usleep m (toInt32 (m.disk.write_lat * 1000))

/-! ## Helper functions -/

/-- The function `check_valid`: `-EIO` unless `size` is the block size. -/
def check_valid (size : Nat) : Int :=
  if (size : Int) ≠ CONFIG_BLOCK_SZ then - EIO_val else 0

/-- The call `abs(x)` of `emulate_rotate` on an `off_t` value. With `<cstdlib>`
alone the unqualified name is `int abs(int)`: the argument is converted to
`int` first and the result is an `int`, so that `abs(INT_MIN)` is `INT_MIN`. -/
def abs_int (x : Int) : Int :=
  let i := toInt32 x
  toInt32 (if i < 0 then -i else i)

/-- The function `emulate_rotate`: no sleep when `distance == 0`, otherwise one
`usleep(distance * lat_per_track / bytes_per_track * 1000)`; it always returns 0.
The three locals are `int`; `/` and `%` truncate as in C, and `abs` is
`abs_int`, which cuts the `off_t` difference to 32 bits. -/
def emulate_rotate {σ : Type} (m : Machine σ) (_fd : Int) (start end_ : Int) :
    Machine σ × Int :=
  let bytes_per_track := toInt32 (Int.tdiv m.disk.layout_size m.disk.track_num)
  let lat_per_track := m.disk.seek_lat
  let distance := toInt32 (Int.tmod (abs_int (end_ - start)) bytes_per_track)
  if distance = 0 then (m, 0)
  else
    (usleep m (toInt32 (Int.tdiv (toInt32 (distance * lat_per_track)) bytes_per_track * 1000)), 0)

/-! ## The device operations -/

/-- The function `ddriver_seek`. -/
def ddriver_seek {σ : Type} (sys : Sys σ) (m : Machine σ) (fd : Int) (offset : Int)
    (whence : Int) : Machine σ × Int :=
  if ¬ IS_ADDR_ALIGN offset then (m, - EINVAL_val)
  else
    let m1 := INC_SEEKCNT m
    let c := sys.lseek m1.os fd 0 SEEK_CUR
    let cur := toInt32 c.2
    let r := sys.lseek c.1 fd offset whence
    let ret := toInt32 r.2
    let m2 : Machine σ := { m1 with os := r.1 }
    if ret < 0 then (m2, ret)
    else ((emulate_rotate m2 fd cur ret).1, ret)

/-- The function `ddriver_write`; the value `write` returns is dropped. -/
def ddriver_write {σ : Type} (sys : Sys σ) (m : Machine σ) (fd : Int) (buf : Buf)
    (size : Nat) : Machine σ × Int :=
  let res := check_valid size
  if res < 0 then (m, res)
  else
    let m1 := RW_DELAY_write m
    let w := sys.write m1.os fd buf size
    let m2 : Machine σ := { m1 with os := w.1 }
    (INC_WRITECNT m2, CONFIG_BLOCK_SZ)

/-- The function `ddriver_read`; the value `read` returns is dropped. The second
component is the caller's buffer after the call. -/
def ddriver_read {σ : Type} (sys : Sys σ) (m : Machine σ) (fd : Int) (buf : Buf)
    (size : Nat) : Machine σ × Buf × Int :=
  let res := check_valid size
  if res < 0 then (m, buf, res)
  else
    let m1 := RW_DELAY_read m
    let r := sys.read m1.os fd buf size
    let m2 : Machine σ := { m1 with os := r.1 }
    (INC_READCNT m2, r.2.1, CONFIG_BLOCK_SZ)

/-! ## The control channel -/

/-- Modelled from the spec: the record `struct ddriver_state` of ddriver_ctl.hpp,
which is not among the sources. It has the three fields `ddriver_ioctl` assigns,
the snapshot `{readCount, writeCount, seekCount}` of the spec. -/
structure ddriver_state where
  read_cnt : Int
  write_cnt : Int
  seek_cnt : Int

/-- The four command codes of ddriver_ctl.hpp, which is not part of the
sources at hand: they are taken as given, pairwise different as the labels of
one `switch` have to be. -/
structure IocCodes where
  IOC_REQ_DEVICE_SIZE : Nat
  IOC_REQ_DEVICE_STATE : Nat
  IOC_REQ_DEVICE_RESET : Nat
  IOC_REQ_DEVICE_IO_SZ : Nat
  distinct : IOC_REQ_DEVICE_SIZE ≠ IOC_REQ_DEVICE_STATE ∧
    IOC_REQ_DEVICE_SIZE ≠ IOC_REQ_DEVICE_RESET ∧
    IOC_REQ_DEVICE_SIZE ≠ IOC_REQ_DEVICE_IO_SZ ∧
    IOC_REQ_DEVICE_STATE ≠ IOC_REQ_DEVICE_RESET ∧
    IOC_REQ_DEVICE_STATE ≠ IOC_REQ_DEVICE_IO_SZ ∧
    IOC_REQ_DEVICE_RESET ≠ IOC_REQ_DEVICE_IO_SZ

/-- What the memory behind the `void *arg` of `ddriver_ioctl` holds: whatever
the caller left there, an `int` copied in, or a `struct ddriver_state` copied in. -/
inductive ArgMem where
  | caller (tag : Nat)
  | int (v : Int)
  | state (s : ddriver_state)

/-- The loop `for (size_t i = 0; i < CONFIG_DISK_SZ; i += 4096) write(fd, buf, 4096);`
of the reset command, from loop variable `i` on, with `buf` all zero
(`CONFIG_DISK_SZ` is 4194304). It ends because `4194304 - i` shrinks. -/
def reset_loop {σ : Type} (sys : Sys σ) (fd : Int) (i : Nat) (s : σ) : σ :=
  if i < 4194304 then reset_loop sys fd (i + 4096) (sys.write s fd (fun _ => 0) 4096).1
  else s
termination_by 4194304 - i

/-- The function `ddriver_ioctl`, with the `switch` read top to bottom. The
second component is the memory behind `arg` after the call. -/
def ddriver_ioctl {σ : Type} (c : IocCodes) (sys : Sys σ) (m : Machine σ) (fd : Int)
    (cmd : Nat) (arg : ArgMem) : Machine σ × ArgMem × Int :=
  if cmd = c.IOC_REQ_DEVICE_SIZE then
    (m, ArgMem.int m.disk.layout_size, 0)
  else if cmd = c.IOC_REQ_DEVICE_STATE then
    let state : ddriver_state :=
      { read_cnt := m.disk.read_cnt, write_cnt := m.disk.write_cnt, seek_cnt := m.disk.seek_cnt }
    (m, ArgMem.state state, 0)
  else if cmd = c.IOC_REQ_DEVICE_RESET then
    let s1 := (sys.lseek m.os fd 0 SEEK_SET).1
    let s2 := reset_loop sys fd 0 s1
    let s3 := (sys.lseek s2 fd 0 SEEK_SET).1
    ({ m with os := s3, disk := { m.disk with read_cnt := 0, write_cnt := 0, seek_cnt := 0 } },
      arg, 0)
  else if cmd = c.IOC_REQ_DEVICE_IO_SZ then
    (m, ArgMem.int m.disk.iounit_size, 0)
  else (m, arg, 0)

/-! ## The host model -/

/-- The backing file as the host sees it through the descriptor the driver
holds: descriptor number, file size, file offset (cursor) and contents.
`data i` is the byte at offset `i`; only offsets in `[0, size)` are in the file. -/
@[ext]
structure Store where
  fd : Int
  size : Int
  pos : Int
  data : Int → Nat

/-- Moving the cursor to the target `t`: refused with -1 when `t` is negative
or beyond `off_t`, otherwise the cursor is `t`, also beyond the file's end.
This is a host without a limit of its own: a file system refuses targets above
its largest file size as well (17592186040320 on ext4), so a seek that succeeds
here is known to succeed on every host only for targets up to the file's size. -/
def lseek_to (s : Store) (t : Int) : Store × Int :=
  if t < 0 ∨ OFF_MAX < t then (s, -1) else ({ s with pos := t }, t)

/-- POSIX `lseek` on the backing file: `SEEK_SET`, `SEEK_CUR` and `SEEK_END`
position relative to 0, the cursor and the file size. It fails with -1 and
moves nothing for another descriptor or another `whence`; the values
`SEEK_DATA = 3` and `SEEK_HOLE = 4` that Linux adds are not modelled. -/
def posix_lseek (s : Store) (fd offset whence : Int) : Store × Int :=
  if fd ≠ s.fd then (s, -1)
  else if whence = SEEK_SET then lseek_to s offset
  else if whence = SEEK_CUR then lseek_to s (s.pos + offset)
  else if whence = SEEK_END then lseek_to s (s.size + offset)
  else (s, -1)

/-- POSIX `read` on the backing file: copies the bytes between the cursor and
the file's end, at most `n`, to the start of `buf` and advances the cursor by
that count, which it returns (0 at or beyond the file's end). -/
def posix_read (s : Store) (fd : Int) (buf : Buf) (n : Nat) : Store × Buf × Int :=
  if fd ≠ s.fd then (s, buf, -1)
  else
    let k : Nat := min n (s.size - s.pos).toNat
    ({ s with pos := s.pos + k }, (fun i => if i < k then s.data (s.pos + i) else buf i), k)

/-- POSIX `write` on the backing file: stores the first `n` bytes of `buf` at the
cursor, growing the file when the range ends beyond its end (a gap left between
the old end and the cursor reads as zero), and advances the cursor by `n`. -/
def posix_write (s : Store) (fd : Int) (buf : Buf) (n : Nat) : Store × Int :=
  if fd ≠ s.fd then (s, -1)
  else if n = 0 then (s, 0)
  else if OFF_MAX < s.pos + n then (s, -1)
  else
    ({ s with
        pos := s.pos + n
        size := max s.size (s.pos + n)
        data := fun i =>
          if s.pos ≤ i ∧ i < s.pos + n then buf (i - s.pos).toNat
          else if i < s.size then s.data i
          else 0 },
      n)

/-- The host model: the three POSIX calls on the backing file. -/
def posix : Sys Store :=
  { lseek := posix_lseek, read := posix_read, write := posix_write }

/-- The state the first successful `ddriver_open` of a process leaves on a
backing file that it created, or that existed with at most `CONFIG_DISK_SZ`
bytes, and that `posix_fallocate(fd, 0, CONFIG_DISK_SZ)` has brought to
`CONFIG_DISK_SZ` bytes: the global `disk` as initialised, descriptor `fd` on the
file with contents `contents`, cursor at 0, and no time slept yet. -/
def device_opened (fd : Int) (contents : Int → Nat) : Machine Store :=
  { disk := disk
    os := { fd := fd, size := CONFIG_DISK_SZ, pos := 0, data := contents }
    slept := 0 }

/-- A call of one of the four operations of an open session, with its arguments. -/
inductive Op where
  | seek (fd : Int) (offset : Int) (whence : Int)
  | read (fd : Int) (buf : Buf) (size : Nat)
  | write (fd : Int) (buf : Buf) (size : Nat)
  | ioctl (fd : Int) (cmd : Nat) (arg : ArgMem)

/-- The machine after one call. -/
def step {σ : Type} (c : IocCodes) (sys : Sys σ) (m : Machine σ) : Op → Machine σ
  | Op.seek fd offset whence => (ddriver_seek sys m fd offset whence).1
  | Op.read fd buf size => (ddriver_read sys m fd buf size).1
  | Op.write fd buf size => (ddriver_write sys m fd buf size).1
  | Op.ioctl fd cmd arg => (ddriver_ioctl c sys m fd cmd arg).1

/-- The machine after a sequence of calls, first call first. -/
def run {σ : Type} (c : IocCodes) (sys : Sys σ) : Machine σ → List Op → Machine σ
  | m, [] => m
  | m, op :: ops => run c sys (step c sys m op) ops

/-- The configuration fields of `d` hold the values of the static initialiser
of `disk`; no function of the driver assigns to them. -/
def shipped_config (d : ddriver) : Prop :=
  d.read_lat = 2 ∧ d.write_lat = 1 ∧ d.seek_lat = 4 ∧ d.track_num = 100 ∧
    d.layout_size = CONFIG_DISK_SZ ∧ d.iounit_size = CONFIG_BLOCK_SZ

/-- The microseconds for which `emulate_rotate(fd, start, end)` blocks the caller. -/
def rotate_delay {σ : Type} (m : Machine σ) (fd : Int) (start end_ : Int) : Nat :=
  (emulate_rotate m fd start end_).1.slept - m.slept

/-- The backing file's cursor and size are multiples of the block size and lie
in the range of `off_t`. -/
def store_inv (s : Store) : Prop :=
  0 ≤ s.pos ∧ s.pos ≤ OFF_MAX ∧ s.pos % 512 = 0 ∧
    0 ≤ s.size ∧ s.size ≤ OFF_MAX ∧ s.size % 512 = 0

/-- Command codes 0, 1, 2, 3, to have one set of codes at hand. -/
def sample_codes : IocCodes :=
  { IOC_REQ_DEVICE_SIZE := 0
    IOC_REQ_DEVICE_STATE := 1
    IOC_REQ_DEVICE_RESET := 2
    IOC_REQ_DEVICE_IO_SZ := 3
    distinct := by decide }

/-! ## Opening and closing -/

/-- What the host answers to the calls `ddriver_open` makes: the home directory
`getpwuid(getuid())->pw_dir`, the value of `access(device_path, F_OK)`, the value
of `open` without and with `O_CREAT | O_TRUNC`, the value of
`posix_fallocate(fd, 0, CONFIG_DISK_SZ)`, and whether `fopen` gave `NULL`. -/
structure OpenEnv where
  pw_dir : String
  access_ret : Int
  open_rdwr : Int
  open_creat : Int
  fallocate_ret : Int
  fopen_null : Bool

/-- The function `ddriver_open`: the value it returns. The two paths are the home
directory followed by `/ddriver` and `/ddriver_log`; `strcmp` is string equality. -/
def ddriver_open (e : OpenEnv) (path : String) : Int :=
  let device_path := e.pw_dir ++ "/ddriver"
  if device_path ≠ path then -1
  else
    let fd := if e.access_ret = 0 then e.open_rdwr else e.open_creat
    if fd < 0 then fd
    else
      let ret := e.fallocate_ret
      if ret < 0 then ret
      else if e.fopen_null then -1
      else fd

/-- The function `ddriver_close`: `return close(fd) && fclose(debugf);` over a host
state `σ`. The operator `&&` evaluates `fclose(debugf)` only when `close(fd)` is
not zero, and the `bool` it gives is returned as 1 or 0. -/
def ddriver_close {σ : Type} (close : σ → Int → σ × Int) (fclose : σ → σ × Int) (s : σ)
    (fd : Int) : σ × Int :=
  let r := close s fd
  if r.2 ≠ 0 then
    let f := fclose r.1
    (f.1, if f.2 ≠ 0 then 1 else 0)
  else (r.1, 0)

/-- The two handles of an open session as the host holds them: the descriptor
number of the backing file, whether it is open, and whether the log stream
`debugf` is open. -/
structure Handles where
  fd : Int
  fd_open : Bool
  log_open : Bool

/-- POSIX `close`: 0 and the descriptor released when `fd` is the open
descriptor, -1 otherwise. -/
def host_close (h : Handles) (fd : Int) : Handles × Int :=
  if fd = h.fd ∧ h.fd_open = true then ({ h with fd_open := false }, 0) else (h, -1)

/-- The libc call `fclose(debugf)` on the open log stream: 0 and the stream released. -/
def host_fclose (h : Handles) : Handles × Int :=
  ({ h with log_open := false }, 0)


/-! # Properties -/

/-! ## Arithmetic of the C operators -/

/-- The alignment test of `IS_ADDR_ALIGN`, made with the remainder of C, holds
exactly when the offset is a multiple of 512. -/
theorem IS_ADDR_ALIGN_iff (o : Int) : IS_ADDR_ALIGN o = true ↔ o % 512 = 0 := by
  unfold IS_ADDR_ALIGN CONFIG_BLOCK_SZ
  rw [beq_iff_eq, ← Int.dvd_iff_tmod_eq_zero]
  omega

/-- A value in the range of `int` is left as it is by the conversion. -/
theorem toInt32_of_range (x : Int) (h1 : -2147483648 ≤ x) (h2 : x ≤ 2147483647) :
    toInt32 x = x := by
  unfold toInt32
  omega

/-- Only block-sized transfers pass `check_valid`. -/
theorem check_valid_neg (size : Nat) (h : size ≠ 512) : check_valid size = -5 := by
  have h1 : (size : Int) ≠ 512 := by omega
  simp [check_valid, CONFIG_BLOCK_SZ, EIO_val, h1]

/-- A block-sized transfer passes `check_valid`. -/
theorem check_valid_block : check_valid 512 = 0 := by
  simp [check_valid, CONFIG_BLOCK_SZ]

/-! ## Rejected calls -/

/-- A seek to an offset that is not a multiple of 512 returns -22 and changes nothing. -/
theorem ddriver_seek_of_misaligned {σ : Type} (sys : Sys σ) (m : Machine σ)
    (fd offset whence : Int) (h : offset % 512 ≠ 0) :
    ddriver_seek sys m fd offset whence = (m, -22) := by
  have ha : IS_ADDR_ALIGN offset = false := by
    cases hb : IS_ADDR_ALIGN offset
    · rfl
    · exact absurd ((IS_ADDR_ALIGN_iff offset).mp hb) h
  simp [ddriver_seek, ha, EINVAL_val]

/-- A read of a size other than 512 returns -5 and changes nothing. -/
theorem ddriver_read_of_wrong_size {σ : Type} (sys : Sys σ) (m : Machine σ) (fd : Int)
    (buf : Buf) (size : Nat) (h : size ≠ 512) :
    ddriver_read sys m fd buf size = (m, buf, -5) := by
  simp [ddriver_read, check_valid_neg size h]

/-- A write of a size other than 512 returns -5 and changes nothing. -/
theorem ddriver_write_of_wrong_size {σ : Type} (sys : Sys σ) (m : Machine σ) (fd : Int)
    (buf : Buf) (size : Nat) (h : size ≠ 512) :
    ddriver_write sys m fd buf size = (m, -5) := by
  simp [ddriver_write, check_valid_neg size h]

/-! ## C3: a misaligned seek -/

/-- C3: for every offset that is not a multiple of 512 (negative ones included)
and every `whence`, on every host, `ddriver_seek` returns `-EINVAL` (-22) and
leaves the whole machine as it was: cursor, backing-store contents, the three
counters and the time slept. -/
theorem seek_misaligned_rejected {σ : Type} (sys : Sys σ) (m : Machine σ)
    (fd offset whence : Int) (h : offset % 512 ≠ 0) :
    ddriver_seek sys m fd offset whence = (m, -22) :=
  ddriver_seek_of_misaligned sys m fd offset whence h

/-- C3 at offset -100 with `SEEK_CUR` on a device just opened. -/
theorem seek_misaligned_rejected_witness :
    (-100 : Int) % 512 ≠ 0 ∧
    ddriver_seek posix (device_opened 3 (fun _ => 0)) 3 (-100) SEEK_CUR =
      (device_opened 3 (fun _ => 0), -22) :=
  ⟨by decide, seek_misaligned_rejected posix (device_opened 3 (fun _ => 0)) 3 (-100) SEEK_CUR
    (by decide)⟩

/-! ## C4: a transfer of the wrong size -/

/-- C4: for every size other than 512, on every host, `ddriver_read` and
`ddriver_write` return `-EIO` (-5) and leave the whole machine as it was
(counters, cursor, backing-store contents, time slept); the read leaves the
caller's buffer as it was. -/
theorem transfer_wrong_size_rejected {σ : Type} (sys : Sys σ) (m : Machine σ) (fd : Int)
    (buf : Buf) (size : Nat) (h : size ≠ 512) :
    ddriver_read sys m fd buf size = (m, buf, -5) ∧
    ddriver_write sys m fd buf size = (m, -5) :=
  ⟨ddriver_read_of_wrong_size sys m fd buf size h, ddriver_write_of_wrong_size sys m fd buf size h⟩

/-- C4 at size 256 on a device just opened. -/
theorem transfer_wrong_size_rejected_witness :
    (256 : Nat) ≠ 512 ∧
    ddriver_read posix (device_opened 3 (fun _ => 0)) 3 (fun _ => 7) 256 =
      (device_opened 3 (fun _ => 0), (fun _ => 7), -5) ∧
    ddriver_write posix (device_opened 3 (fun _ => 0)) 3 (fun _ => 7) 256 =
      (device_opened 3 (fun _ => 0), -5) :=
  ⟨by decide, transfer_wrong_size_rejected posix (device_opened 3 (fun _ => 0)) 3 (fun _ => 7) 256
    (by decide)⟩

/-! ## C8: the value a block transfer returns -/

/-- C8: for size 512, on every host (whatever its `read` and `write` return and
do), `ddriver_read` and `ddriver_write` return 512. -/
theorem transfer_returns_block_size {σ : Type} (sys : Sys σ) (m : Machine σ) (fd : Int)
    (buf : Buf) :
    (ddriver_read sys m fd buf 512).2.2 = 512 ∧ (ddriver_write sys m fd buf 512).2 = 512 := by
  simp [ddriver_read, ddriver_write, check_valid_block, CONFIG_BLOCK_SZ]

/-- The cases C8 names, on the host model: with the cursor at the store's end
the host's `read` returns 0, and on a descriptor that is not the open one the
host's `read` and `write` return -1; `ddriver_read` and `ddriver_write` return
512 in both. -/
theorem transfer_hides_host_result (buf : Buf) :
    (posix_read (run sample_codes posix (device_opened 3 (fun _ => 0))
      [Op.seek 3 0 SEEK_END]).os 3 buf 512).2.2 = 0 ∧
    (ddriver_read posix (run sample_codes posix (device_opened 3 (fun _ => 0))
      [Op.seek 3 0 SEEK_END]) 3 buf 512).2.2 = 512 ∧
    (posix_read (device_opened 3 (fun _ => 0)).os 4 buf 512).2.2 = -1 ∧
    (posix_write (device_opened 3 (fun _ => 0)).os 4 buf 512).2 = -1 ∧
    (ddriver_read posix (device_opened 3 (fun _ => 0)) 4 buf 512).2.2 = 512 ∧
    (ddriver_write posix (device_opened 3 (fun _ => 0)) 4 buf 512).2 = 512 := by
  refine ⟨?_, ?_, ?_, ?_, ?_, ?_⟩ <;> rfl

/-! ## C7: the rotational delay -/

/-- The value of `abs_int` is `INT_MIN` or lies in `[0, INT_MAX]`. -/
theorem abs_int_range (x : Int) :
    abs_int x = -2147483648 ∨ (0 ≤ abs_int x ∧ abs_int x ≤ 2147483647) := by
  simp only [abs_int, toInt32]
  split_ifs <;> omega

/-- With the shipped configuration, for every value `D` that `abs_int` can give,
the locals of `emulate_rotate` stay within `int`: `distance`, `distance * 4`
and the argument of `usleep`, which lies in `[0, 3000]`. -/
theorem rotate_arith_in_range (D : Int)
    (hD : D = -2147483648 ∨ (0 ≤ D ∧ D ≤ 2147483647)) :
    toInt32 (Int.tmod D 41943) = Int.tmod D 41943 ∧
    toInt32 (Int.tmod D 41943 * 4) = Int.tmod D 41943 * 4 ∧
    toInt32 (Int.tdiv (Int.tmod D 41943 * 4) 41943 * 1000) =
      Int.tdiv (Int.tmod D 41943 * 4) 41943 * 1000 ∧
    0 ≤ Int.tdiv (Int.tmod D 41943 * 4) 41943 * 1000 ∧
    Int.tdiv (Int.tmod D 41943 * 4) 41943 * 1000 ≤ 3000 := by
  rcases hD with h | ⟨h0, h1⟩
  · subst h
    decide
  · have hm : Int.tmod D 41943 = D % 41943 := Int.tmod_eq_emod h0 (by decide)
    have hr0 : 0 ≤ D % 41943 := Int.emod_nonneg _ (by decide)
    have hr1 : D % 41943 < 41943 := Int.emod_lt_of_pos _ (by decide)
    have hq : Int.tdiv (D % 41943 * 4) 41943 = D % 41943 * 4 / 41943 :=
      Int.tdiv_eq_ediv (by omega) (by decide)
    rw [hm, hq]
    refine ⟨toInt32_of_range _ (by omega) (by omega), toInt32_of_range _ (by omega) (by omega),
      toInt32_of_range _ (by omega) (by omega), by omega, by omega⟩


/-- With the shipped configuration `emulate_rotate` changes nothing but the time
slept, and adds the `distance * 4 / 41943 * 1000` microseconds of the source to
it, where `distance` is `abs_int (end - start) % 41943`, with `/` and `%` of C. -/
theorem emulate_rotate_shipped {σ : Type} (m : Machine σ) (fd start end_ : Int)
    (h : shipped_config m.disk) :
    (emulate_rotate m fd start end_).1 =
      { m with slept := m.slept +
          (Int.tdiv (Int.tmod (abs_int (end_ - start)) 41943 * 4) 41943 * 1000).toNat } := by
  obtain ⟨-, -, h3, h4, h5, -⟩ := h
  have hb : toInt32 (Int.tdiv (4 * 1024 * 1024) 100) = 41943 := by decide
  have key := rotate_arith_in_range (abs_int (end_ - start)) (abs_int_range (end_ - start))
  simp only [emulate_rotate, h3, h4, h5, CONFIG_DISK_SZ]
  rw [hb]
  generalize abs_int (end_ - start) = D at key ⊢
  obtain ⟨a1, a2, a3, a4, a5⟩ := key
  rw [a1]
  by_cases hz : Int.tmod D 41943 = 0
  · rw [if_pos hz, hz]
    have h0 : (Int.tdiv (0 * 4) 41943 * 1000).toNat = 0 := by decide
    rw [h0]
    rfl
  · rw [if_neg hz, a2, a3]
    simp only [usleep, toUInt32]
    rw [Int.emod_eq_of_lt a4 (lt_of_le_of_lt a5 (by decide))]

/-- C5, with the bound the `int` counters need: a successful `ddriver_seek`,
`ddriver_read` or `ddriver_write` (one that returns a non-negative value), on
every host, adds exactly 1 to its own counter when that counter is an `int`
below `INT_MAX`, and leaves the other two counters as they were. -/
theorem successful_call_counts_once {σ : Type} (sys : Sys σ) (m : Machine σ) (fd : Int)
    (offset whence : Int) (buf : Buf) (size : Nat) :
    (0 ≤ (ddriver_seek sys m fd offset whence).2 →
      -2147483648 ≤ m.disk.seek_cnt → m.disk.seek_cnt < INT_MAX →
      (ddriver_seek sys m fd offset whence).1.disk.seek_cnt = m.disk.seek_cnt + 1 ∧
      (ddriver_seek sys m fd offset whence).1.disk.read_cnt = m.disk.read_cnt ∧
      (ddriver_seek sys m fd offset whence).1.disk.write_cnt = m.disk.write_cnt) ∧
    (0 ≤ (ddriver_read sys m fd buf size).2.2 →
      -2147483648 ≤ m.disk.read_cnt → m.disk.read_cnt < INT_MAX →
      (ddriver_read sys m fd buf size).1.disk.read_cnt = m.disk.read_cnt + 1 ∧
      (ddriver_read sys m fd buf size).1.disk.seek_cnt = m.disk.seek_cnt ∧
      (ddriver_read sys m fd buf size).1.disk.write_cnt = m.disk.write_cnt) ∧
    (0 ≤ (ddriver_write sys m fd buf size).2 →
      -2147483648 ≤ m.disk.write_cnt → m.disk.write_cnt < INT_MAX →
      (ddriver_write sys m fd buf size).1.disk.write_cnt = m.disk.write_cnt + 1 ∧
      (ddriver_write sys m fd buf size).1.disk.seek_cnt = m.disk.seek_cnt ∧
      (ddriver_write sys m fd buf size).1.disk.read_cnt = m.disk.read_cnt) := by
  refine ⟨?_, ?_, ?_⟩
  · intro hs hlo hhi
    by_cases ha : offset % 512 = 0
    · have hal := (IS_ADDR_ALIGN_iff offset).mpr ha
      have hw := toInt32_of_range (m.disk.seek_cnt + 1) (by omega) (by unfold INT_MAX at hhi; omega)
      simp only [ddriver_seek, hal, INC_SEEKCNT, emulate_rotate, usleep] at hs ⊢
      simp only [not_true_eq_false, if_false] at hs ⊢
      split_ifs <;> simp [hw]
    · rw [ddriver_seek_of_misaligned sys m fd offset whence ha] at hs
      simp at hs
  · intro hs hlo hhi
    by_cases hz : size = 512
    · subst hz
      have hw := toInt32_of_range (m.disk.read_cnt + 1) (by omega) (by unfold INT_MAX at hhi; omega)
      simp [ddriver_read, check_valid_block, INC_READCNT, RW_DELAY_read, usleep, hw]
    · rw [ddriver_read_of_wrong_size sys m fd buf size hz] at hs
      simp at hs
  · intro hs hlo hhi
    by_cases hz : size = 512
    · subst hz
      have hw := toInt32_of_range (m.disk.write_cnt + 1) (by omega) (by unfold INT_MAX at hhi; omega)
      simp [ddriver_write, check_valid_block, INC_WRITECNT, RW_DELAY_write, usleep, hw]
    · rw [ddriver_write_of_wrong_size sys m fd buf size hz] at hs
      simp at hs

/-! ## The host model: what the calls do -/

/-- A sequence of calls is run call by call. -/
theorem run_cons {σ : Type} (c : IocCodes) (sys : Sys σ) (m : Machine σ) (op : Op)
    (ops : List Op) : run c sys m (op :: ops) = run c sys (step c sys m op) ops := rfl

/-- Running no call changes nothing. -/
theorem run_nil {σ : Type} (c : IocCodes) (sys : Sys σ) (m : Machine σ) :
    run c sys m [] = m := rfl

/-- One step with a seek. -/
theorem step_seek {σ : Type} (c : IocCodes) (sys : Sys σ) (m : Machine σ) (fd o w : Int) :
    step c sys m (Op.seek fd o w) = (ddriver_seek sys m fd o w).1 := rfl

/-- One step with a read. -/
theorem step_read {σ : Type} (c : IocCodes) (sys : Sys σ) (m : Machine σ) (fd : Int) (buf : Buf)
    (n : Nat) : step c sys m (Op.read fd buf n) = (ddriver_read sys m fd buf n).1 := rfl

/-- One step with a write. -/
theorem step_write {σ : Type} (c : IocCodes) (sys : Sys σ) (m : Machine σ) (fd : Int) (buf : Buf)
    (n : Nat) : step c sys m (Op.write fd buf n) = (ddriver_write sys m fd buf n).1 := rfl

/-- One step with a control call. -/
theorem step_ioctl {σ : Type} (c : IocCodes) (sys : Sys σ) (m : Machine σ) (fd : Int) (cmd : Nat)
    (arg : ArgMem) : step c sys m (Op.ioctl fd cmd arg) = (ddriver_ioctl c sys m fd cmd arg).1 :=
  rfl

/-- Asking for the cursor with `lseek(fd, 0, SEEK_CUR)` leaves the file as it is. -/
theorem posix_lseek_cur_state (s : Store) (fd : Int) :
    (posix_lseek s fd 0 SEEK_CUR).1 = s := by
  have h10 : ¬ (1 : Int) = 0 := by decide
  simp only [posix_lseek, lseek_to, SEEK_CUR, SEEK_SET, add_zero, h10, if_false, if_true]
  split_ifs <;> rfl

/-- A write of `n > 0` bytes on the open descriptor that ends within `off_t`. -/
theorem posix_write_ok (s : Store) (fd : Int) (buf : Buf) (n : Nat) (hfd : fd = s.fd)
    (hn : n ≠ 0) (h : s.pos + n ≤ OFF_MAX) :
    posix_write s fd buf n =
      ({ s with
          pos := s.pos + n
          size := max s.size (s.pos + n)
          data := fun i =>
            if s.pos ≤ i ∧ i < s.pos + n then buf (i - s.pos).toNat
            else if i < s.size then s.data i
            else 0 }, (n : Int)) := by
  subst hfd
  unfold posix_write
  rw [if_neg (by simp), if_neg hn, if_neg (by omega)]

/-- Any call on a descriptor other than the open one leaves the file as it is. -/
theorem posix_bad_fd (s : Store) (fd : Int) (h : fd ≠ s.fd) (offset whence : Int) (buf : Buf)
    (n : Nat) :
    (posix_lseek s fd offset whence).1 = s ∧ (posix_read s fd buf n).1 = s ∧
      (posix_write s fd buf n).1 = s := by
  simp [posix_lseek, posix_read, posix_write, h]

/-- The reset loop keeps whatever every one of its writes keeps. -/
theorem reset_loop_keeps {σ : Type} (sys : Sys σ) (fd : Int) (P : σ → Prop)
    (hw : ∀ s, P s → P (sys.write s fd (fun _ => 0) 4096).1) :
    ∀ (n i : Nat) (s : σ), 4194304 - i ≤ n → P s → P (reset_loop sys fd i s) := by
  intro n
  induction n with
  | zero =>
    intro i s hi hp
    rw [reset_loop, if_neg (by omega)]
    exact hp
  | succ n ih =>
    intro i s hi hp
    rw [reset_loop]
    split_ifs with hlt
    · exact ih (i + 4096) _ (by omega) (hw s hp)
    · exact hp

/-- The reset loop started at a cursor `i` below the capacity, a multiple of 4096
short of it: it zeroes `[i, 4194304)`, keeps every other byte of the file, and
ends with the cursor at 4194304. -/
theorem reset_loop_posix :
    ∀ (k i : Nat) (s : Store) (fd : Int), fd = s.fd → i + 4096 * (k + 1) = 4194304 →
      s.pos = i →
      reset_loop posix fd i s =
        { fd := s.fd
          size := max s.size 4194304
          pos := 4194304
          data := fun j =>
            if (i : Int) ≤ j ∧ j < 4194304 then 0
            else if j < s.size then s.data j
            else 0 } := by
  intro k
  induction k with
  | zero =>
    intro i s fd hfd hi hp
    subst hfd
    have hw := posix_write_ok s s.fd (fun _ => 0) 4096 rfl (by decide) (by unfold OFF_MAX; omega)
    rw [reset_loop, if_pos (by omega), reset_loop, if_neg (by omega)]
    rw [show posix.write = posix_write from rfl, hw]
    ext j
    · rfl
    · simp only [Nat.cast_ofNat]
      congr 1
      omega
    · simp only [Nat.cast_ofNat]
      omega
    · simp only [Nat.cast_ofNat, hp]
      have : (i : Int) + 4096 = 4194304 := by omega
      rw [this]
  | succ k ih =>
    intro i s fd hfd hi hp
    subst hfd
    have hw := posix_write_ok s s.fd (fun _ => 0) 4096 rfl (by decide) (by unfold OFF_MAX; omega)
    rw [reset_loop, if_pos (by omega)]
    rw [show posix.write = posix_write from rfl, hw]
    have := ih (i + 4096)
      { s with
          pos := s.pos + (4096 : Nat)
          size := max s.size (s.pos + (4096 : Nat))
          data := fun i =>
            if s.pos ≤ i ∧ i < s.pos + (4096 : Nat) then 0
            else if i < s.size then s.data i
            else 0 } s.fd rfl (by omega) (by simp [hp])
    simp only at this
    rw [this]
    ext j
    · rfl
    · simp only [Nat.cast_ofNat]
      omega
    · rfl
    · simp only [Nat.cast_ofNat, Nat.cast_add, hp]
      split_ifs <;> first | rfl | omega

/-- The call `lseek(fd, 0, SEEK_SET)` on the open descriptor rewinds the cursor. -/
theorem posix_lseek_rewind (s : Store) (fd : Int) (hfd : fd = s.fd) :
    posix_lseek s fd 0 SEEK_SET = ({ s with pos := 0 }, 0) := by
  subst hfd
  simp [posix_lseek, lseek_to, SEEK_SET, OFF_MAX]

/-- The reset command on the open descriptor: counters zero, cursor at 0, the
bytes of `[0, 4194304)` zero, every byte of the file beyond them kept, and the
memory behind `arg` untouched. -/
theorem ddriver_ioctl_reset_posix (c : IocCodes) (m : Machine Store) (fd : Int) (arg : ArgMem)
    (hfd : fd = m.os.fd) :
    ddriver_ioctl c posix m fd c.IOC_REQ_DEVICE_RESET arg =
      ({ disk := { m.disk with read_cnt := 0, write_cnt := 0, seek_cnt := 0 }
         os :=
          { fd := m.os.fd
            size := max m.os.size 4194304
            pos := 0
            data := fun j =>
              if 0 ≤ j ∧ j < 4194304 then 0
              else if j < m.os.size then m.os.data j
              else 0 }
         slept := m.slept }, arg, 0) := by
  subst hfd
  obtain ⟨h1, h2, -, h4, -, -⟩ := c.distinct
  have hl := reset_loop_posix 1023 0 { m.os with pos := 0 } m.os.fd rfl (by decide) rfl
  simp only [ddriver_ioctl, if_neg (Ne.symm h2), if_neg (Ne.symm h4), if_true]
  rw [show posix.lseek = posix_lseek from rfl, posix_lseek_rewind _ _ rfl]
  simp only at hl ⊢
  rw [hl, posix_lseek_rewind _ _ rfl]
  rfl

/-! ## The driver on the host model -/

/-- The function `emulate_rotate` touches neither the host nor the global `disk`. -/
theorem emulate_rotate_frame {σ : Type} (m : Machine σ) (fd start end_ : Int) :
    (emulate_rotate m fd start end_).1.os = m.os ∧
      (emulate_rotate m fd start end_).1.disk = m.disk := by
  simp only [emulate_rotate]
  split_ifs
  · exact ⟨rfl, rfl⟩
  · exact ⟨rfl, rfl⟩

/-- An aligned seek on the host model: the file is left as the host's `lseek` to
the requested position leaves it, whatever value is returned; the value
returned is the one of that `lseek` converted to `int`; `seek_cnt` is counted up. -/
theorem ddriver_seek_posix (m : Machine Store) (fd offset whence : Int)
    (h : offset % 512 = 0) :
    (ddriver_seek posix m fd offset whence).1.os = (posix_lseek m.os fd offset whence).1 ∧
    (ddriver_seek posix m fd offset whence).2 = toInt32 (posix_lseek m.os fd offset whence).2 ∧
    (ddriver_seek posix m fd offset whence).1.disk =
      { m.disk with seek_cnt := toInt32 (m.disk.seek_cnt + 1) } := by
  have hal := (IS_ADDR_ALIGN_iff offset).mpr h
  simp only [ddriver_seek, hal, not_true_eq_false, if_false, INC_SEEKCNT,
    show posix.lseek = posix_lseek from rfl, posix_lseek_cur_state]
  split_ifs
  · exact ⟨rfl, rfl, rfl⟩
  · refine ⟨?_, rfl, ?_⟩
    · rw [(emulate_rotate_frame _ _ _ _).1]
    · rw [(emulate_rotate_frame _ _ _ _).2]

/-- A block-sized read, on every host: the latency sleep, the host's `read`, the
count, and 512 returned. -/
theorem ddriver_read_block {σ : Type} (sys : Sys σ) (m : Machine σ) (fd : Int) (buf : Buf) :
    ddriver_read sys m fd buf 512 =
      (INC_READCNT { RW_DELAY_read m with os := (sys.read m.os fd buf 512).1 },
        (sys.read m.os fd buf 512).2.1, 512) := by
  simp [ddriver_read, check_valid_block, RW_DELAY_read, usleep, CONFIG_BLOCK_SZ]

/-- A block-sized write, on every host: the latency sleep, the host's `write`,
the count, and 512 returned. -/
theorem ddriver_write_block {σ : Type} (sys : Sys σ) (m : Machine σ) (fd : Int) (buf : Buf) :
    ddriver_write sys m fd buf 512 =
      (INC_WRITECNT { RW_DELAY_write m with os := (sys.write m.os fd buf 512).1 }, 512) := by
  simp [ddriver_write, check_valid_block, RW_DELAY_write, usleep, CONFIG_BLOCK_SZ]

/-- Seeking with `SEEK_SET` to an aligned offset `o` whose block lies within the
file and reading one block there returns bytes `o .. o + 511` of the file. -/
theorem seek_then_read_block (m : Machine Store) (fd o : Int) (out : Buf) (hfd : fd = m.os.fd)
    (ha : o % 512 = 0) (h0 : 0 ≤ o) (h1 : o + 512 ≤ m.os.size) (h2 : o ≤ OFF_MAX) (i : Nat)
    (hi : i < 512) :
    (ddriver_read posix (ddriver_seek posix m fd o SEEK_SET).1 fd out 512).2.1 i =
      m.os.data (o + i) := by
  subst hfd
  have hs := (ddriver_seek_posix m m.os.fd o SEEK_SET ha).1
  have hl : posix_lseek m.os m.os.fd o SEEK_SET = ({ m.os with pos := o }, o) := by
    simp only [posix_lseek, lseek_to, ne_eq, not_true_eq_false, if_false, if_true]
    rw [if_neg (by omega)]
  rw [hl] at hs
  rw [ddriver_read_block, show posix.read = posix_read from rfl, hs]
  have hk : min 512 (m.os.size - o).toNat = 512 := by omega
  simp only [posix_read, ne_eq, not_true_eq_false, if_false, hk, if_pos hi]

/-! ## C6: the reset command -/

/-- C6, for the blocks within the capacity: after `ddriver_ioctl` with the reset
command on the device's descriptor, issued in any state, the cursor is at 0,
the three counters are 0, and seeking to any aligned offset `o` with
`0 ≤ o` and `o + 512 ≤ 4194304` and reading one block returns 512 zero bytes. -/
theorem reset_zeroes_capacity (c : IocCodes) (m : Machine Store) (fd : Int) (arg : ArgMem)
    (hfd : fd = m.os.fd) :
    (ddriver_ioctl c posix m fd c.IOC_REQ_DEVICE_RESET arg).1.os.pos = 0 ∧
    (ddriver_ioctl c posix m fd c.IOC_REQ_DEVICE_RESET arg).1.disk.read_cnt = 0 ∧
    (ddriver_ioctl c posix m fd c.IOC_REQ_DEVICE_RESET arg).1.disk.write_cnt = 0 ∧
    (ddriver_ioctl c posix m fd c.IOC_REQ_DEVICE_RESET arg).1.disk.seek_cnt = 0 ∧
    ∀ (o : Int) (out : Buf), o % 512 = 0 → 0 ≤ o → o + 512 ≤ CONFIG_DISK_SZ →
      ∀ i, i < 512 →
        (ddriver_read posix
          (ddriver_seek posix (ddriver_ioctl c posix m fd c.IOC_REQ_DEVICE_RESET arg).1
            fd o SEEK_SET).1 fd out 512).2.1 i = 0 := by
  rw [ddriver_ioctl_reset_posix c m fd arg hfd]
  refine ⟨rfl, rfl, rfl, rfl, ?_⟩
  intro o out ha h0 h1 i hi
  unfold CONFIG_DISK_SZ at h1
  have := seek_then_read_block
    { disk := { m.disk with read_cnt := 0, write_cnt := 0, seek_cnt := 0 }
      os :=
        { fd := m.os.fd
          size := max m.os.size 4194304
          pos := 0
          data := fun j =>
            if 0 ≤ j ∧ j < 4194304 then 0
            else if j < m.os.size then m.os.data j
            else 0 }
      slept := m.slept } fd o out hfd ha h0 (by simp only; omega) (by unfold OFF_MAX; omega) i hi
  simp only at this
  rw [this, if_pos (by omega)]

/-- C6 at the block at offset 1024 of a device just opened on a store full of 0xAB. -/
theorem reset_zeroes_capacity_witness :
    (3 : Int) = (device_opened 3 (fun _ => 0xAB)).os.fd ∧
    (1024 : Int) % 512 = 0 ∧ (0 : Int) ≤ 1024 ∧ (1024 : Int) + 512 ≤ CONFIG_DISK_SZ ∧ 5 < 512 ∧
    (ddriver_read posix
      (ddriver_seek posix
        (ddriver_ioctl sample_codes posix (device_opened 3 (fun _ => 0xAB)) 3
          sample_codes.IOC_REQ_DEVICE_RESET (ArgMem.caller 0)).1 3 1024 SEEK_SET).1 3
      (fun _ => 7) 512).2.1 5 = 0 :=
  ⟨rfl, by decide, by decide, by decide, by decide,
    (reset_zeroes_capacity sample_codes (device_opened 3 (fun _ => 0xAB)) 3 (ArgMem.caller 0)
      rfl).2.2.2.2 1024 (fun _ => 7) (by decide) (by decide) (by decide) 5 (by decide)⟩

/-- C6 fails for a block beyond the capacity: from a device just opened on an
all-zero store, seek to 4194304, write a block of 0xAB (the file grows to
4194816 bytes), reset, seek to 4194304 again, read one block: the first byte
read is 0xAB, not zero. -/
theorem reset_keeps_block_beyond_capacity :
    (ddriver_read posix
      (run sample_codes posix (device_opened 3 (fun _ => 0))
        [Op.seek 3 4194304 SEEK_SET, Op.write 3 (fun _ => 0xAB) 512,
          Op.ioctl 3 sample_codes.IOC_REQ_DEVICE_RESET (ArgMem.caller 0),
          Op.seek 3 4194304 SEEK_SET]) 3 (fun _ => 0) 512).2.1 0 = 0xAB := by
  have hfd : (3 : Int) = (ddriver_write posix (ddriver_seek posix (device_opened 3 (fun _ => 0))
      3 4194304 SEEK_SET).1 3 (fun _ => 0xAB) 512).1.os.fd := by rfl
  have hsize : (ddriver_write posix (ddriver_seek posix (device_opened 3 (fun _ => 0))
      3 4194304 SEEK_SET).1 3 (fun _ => 0xAB) 512).1.os.size = 4194816 := by rfl
  have hdata : (ddriver_write posix (ddriver_seek posix (device_opened 3 (fun _ => 0))
      3 4194304 SEEK_SET).1 3 (fun _ => 0xAB) 512).1.os.data 4194304 = 0xAB := by rfl
  rw [run_cons, run_cons, run_cons, run_cons, run_nil, step_seek, step_write, step_ioctl,
    step_seek]
  generalize (ddriver_write posix (ddriver_seek posix (device_opened 3 (fun _ => 0))
      3 4194304 SEEK_SET).1 3 (fun _ => 0xAB) 512).1 = m2 at hfd hsize hdata
  rw [ddriver_ioctl_reset_posix sample_codes m2 3 (ArgMem.caller 0) hfd]
  have := seek_then_read_block
    { disk := { m2.disk with read_cnt := 0, write_cnt := 0, seek_cnt := 0 }
      os :=
        { fd := m2.os.fd
          size := max m2.os.size 4194304
          pos := 0
          data := fun j =>
            if 0 ≤ j ∧ j < 4194304 then 0
            else if j < m2.os.size then m2.os.data j
            else 0 }
      slept := m2.slept } 3 4194304 (fun _ => 0) hfd (by decide) (by decide)
    (by simp only; omega) (by decide) 0 (by decide)
  simp only at this
  rw [this, hsize]
  simpa using hdata

/-! ## What every call of an open session keeps -/

/-- The host's `lseek` with an aligned offset keeps `store_inv`. -/
theorem posix_lseek_inv (s : Store) (fd offset whence : Int) (h : store_inv s)
    (ha : offset % 512 = 0) : store_inv (posix_lseek s fd offset whence).1 := by
  obtain ⟨h1, h2, h3, h4, h5, h6⟩ := h
  unfold OFF_MAX at h2 h5
  simp only [posix_lseek, lseek_to, OFF_MAX]
  split_ifs <;> simp only [store_inv, OFF_MAX] <;> omega

/-- The host's `read` of one block keeps `store_inv`. -/
theorem posix_read_inv (s : Store) (fd : Int) (buf : Buf) (h : store_inv s) :
    store_inv (posix_read s fd buf 512).1 := by
  obtain ⟨h1, h2, h3, h4, h5, h6⟩ := h
  unfold OFF_MAX at h2 h5
  simp only [posix_read]
  split_ifs <;> simp only [store_inv, OFF_MAX] <;> omega

/-- The host's `write` of a whole number of blocks keeps `store_inv`. -/
theorem posix_write_inv (s : Store) (fd : Int) (buf : Buf) (n : Nat) (hn : n % 512 = 0)
    (h : store_inv s) : store_inv (posix_write s fd buf n).1 := by
  obtain ⟨h1, h2, h3, h4, h5, h6⟩ := h
  unfold OFF_MAX at h2 h5
  simp only [posix_write, OFF_MAX]
  split_ifs <;> simp only [store_inv, OFF_MAX] <;> omega

/-- Every call of an open session keeps `store_inv`. -/
theorem step_inv (c : IocCodes) (m : Machine Store) (op : Op) (h : store_inv m.os) :
    store_inv (step c posix m op).os := by
  cases op with
  | seek fd offset whence =>
    rw [step_seek]
    by_cases ha : offset % 512 = 0
    · rw [(ddriver_seek_posix m fd offset whence ha).1]
      exact posix_lseek_inv _ _ _ _ h ha
    · rw [ddriver_seek_of_misaligned posix m fd offset whence ha]
      exact h
  | read fd buf size =>
    rw [step_read]
    by_cases hz : size = 512
    · subst hz
      rw [ddriver_read_block]
      exact posix_read_inv _ _ _ h
    · rw [ddriver_read_of_wrong_size posix m fd buf size hz]
      exact h
  | write fd buf size =>
    rw [step_write]
    by_cases hz : size = 512
    · subst hz
      rw [ddriver_write_block]
      exact posix_write_inv _ _ _ 512 (by decide) h
    · rw [ddriver_write_of_wrong_size posix m fd buf size hz]
      exact h
  | ioctl fd cmd arg =>
    rw [step_ioctl]
    unfold ddriver_ioctl
    split_ifs
    · exact h
    · exact h
    · apply posix_lseek_inv _ _ _ _ _ (by decide)
      apply reset_loop_keeps posix fd store_inv
        (fun s hs => posix_write_inv s fd _ 4096 (by decide) hs) 4194304 0 _ (by omega)
      exact posix_lseek_inv _ _ _ _ h (by decide)
    · exact h
    · exact h

/-- Every sequence of calls of an open session keeps `store_inv`. -/
theorem run_inv (c : IocCodes) (ops : List Op) :
    ∀ m : Machine Store, store_inv m.os → store_inv (run c posix m ops).os := by
  induction ops with
  | nil => intro m h; exact h
  | cons op ops ih =>
    intro m h
    rw [run_cons]
    exact ih _ (step_inv c m op h)

/-- The store of a device just opened satisfies `store_inv`. -/
theorem device_opened_inv (fd : Int) (contents : Int → Nat) :
    store_inv (device_opened fd contents).os := by
  simp only [store_inv, device_opened, CONFIG_DISK_SZ, OFF_MAX]
  omega

/-! ## C9 and C10: the cursor in the states an open session reaches -/

/-- C9 fails at its upper bound: on a device just opened, the aligned seek to
offset 4194816 succeeds (it returns 4194816) and leaves the cursor beyond the
capacity of 4194304 bytes. -/
theorem seek_beyond_capacity :
    (ddriver_seek posix (device_opened 3 (fun _ => 0)) 3 4194816 SEEK_SET).2 = 4194816 ∧
    ¬ (run sample_codes posix (device_opened 3 (fun _ => 0))
        [Op.seek 3 4194816 SEEK_SET]).os.pos ≤ CONFIG_DISK_SZ := by
  decide

/-- C9 with the bound that holds: in every state reached from a device just
opened by any sequence of seek, read, write and control calls, the cursor is
at least 0 and at most `OFF_MAX`, the largest `off_t`. -/
theorem cursor_within_off_t (c : IocCodes) (fd : Int) (contents : Int → Nat) (ops : List Op) :
    0 ≤ (run c posix (device_opened fd contents) ops).os.pos ∧
    (run c posix (device_opened fd contents) ops).os.pos ≤ OFF_MAX := by
  have h := run_inv c ops (device_opened fd contents) (device_opened_inv fd contents)
  exact ⟨h.1, h.2.1⟩

/-- C2 fails from right to left: -512 is a multiple of 512, and on a device just
opened the seek to -512 with `SEEK_SET` returns -1. -/
theorem seek_aligned_negative_fails :
    ¬ (0 ≤ (ddriver_seek posix (device_opened 3 (fun _ => 0)) 3 (-512) SEEK_SET).2 ↔
        (-512 : Int) % 512 = 0) := by
  decide

/-- The host's `lseek` to a target `t` that is negative or lies in `[0, OFF_MAX]`. -/
theorem lseek_to_cases (s : Store) (t : Int) :
    (t < 0 → lseek_to s t = (s, -1)) ∧
    (0 ≤ t → t ≤ OFF_MAX → lseek_to s t = ({ s with pos := t }, t)) := by
  unfold lseek_to
  constructor
  · intro h
    rw [if_pos (Or.inl h)]
  · intro h0 h1
    rw [if_neg (by omega)]

/-- The target the host's `lseek` aims at on the open descriptor, for each of the
three `whence` values. -/
theorem posix_lseek_targets (s : Store) (fd offset : Int) (hfd : fd = s.fd) :
    posix_lseek s fd offset SEEK_SET = lseek_to s offset ∧
    posix_lseek s fd offset SEEK_CUR = lseek_to s (s.pos + offset) ∧
    posix_lseek s fd offset SEEK_END = lseek_to s (s.size + offset) := by
  subst hfd
  have h10 : ¬ (1 : Int) = 0 := by decide
  have h20 : ¬ (2 : Int) = 0 := by decide
  have h21 : ¬ (2 : Int) = 1 := by decide
  simp [posix_lseek, SEEK_SET, SEEK_CUR, SEEK_END, h10, h20, h21]

/-- An aligned seek whose host `lseek` aims at the target `t`: it returns `t` when
`t` lies in `[0, CONFIG_DISK_SZ]` and -1 when `t` is negative. -/
theorem ddriver_seek_target (m : Machine Store) (fd offset whence t : Int)
    (ha : offset % 512 = 0) (ht : posix_lseek m.os fd offset whence = lseek_to m.os t) :
    (0 ≤ t → t ≤ CONFIG_DISK_SZ → (ddriver_seek posix m fd offset whence).2 = t) ∧
    (t < 0 → (ddriver_seek posix m fd offset whence).2 = -1) := by
  rw [(ddriver_seek_posix m fd offset whence ha).2.1, ht]
  constructor
  · intro h0 h1
    unfold CONFIG_DISK_SZ at h1
    rw [(lseek_to_cases m.os t).2 h0 (by unfold OFF_MAX; omega)]
    exact toInt32_of_range t (by omega) (by omega)
  · intro h
    rw [(lseek_to_cases m.os t).1 h]
    show toInt32 (-1) = -1
    decide

/-- C2 as the code has it: on every host a seek succeeds (returns a non-negative
value) only if the offset is a multiple of 512. On the device's descriptor, an
aligned offset succeeds, returning the position it asks for (the offset, the
cursor plus the offset, or the file size plus the offset, by `whence`), when
that position lies in `[0, CONFIG_DISK_SZ]`, and fails with -1 when that
position is negative; so for `SEEK_SET` and an offset in `[0, CONFIG_DISK_SZ]`
the seek succeeds exactly when the offset is a multiple of 512. -/
theorem seek_success_conditions {σ : Type} (sys : Sys σ) (g : Machine σ) (m : Machine Store)
    (fd offset whence : Int) :
    (0 ≤ (ddriver_seek sys g fd offset whence).2 → offset % 512 = 0) ∧
    (fd = m.os.fd → offset % 512 = 0 →
      (0 ≤ offset → offset ≤ CONFIG_DISK_SZ →
        (ddriver_seek posix m fd offset SEEK_SET).2 = offset) ∧
      (0 ≤ m.os.pos + offset → m.os.pos + offset ≤ CONFIG_DISK_SZ →
        (ddriver_seek posix m fd offset SEEK_CUR).2 = m.os.pos + offset) ∧
      (0 ≤ m.os.size + offset → m.os.size + offset ≤ CONFIG_DISK_SZ →
        (ddriver_seek posix m fd offset SEEK_END).2 = m.os.size + offset)) ∧
    (fd = m.os.fd → offset % 512 = 0 →
      (offset < 0 → (ddriver_seek posix m fd offset SEEK_SET).2 = -1) ∧
      (m.os.pos + offset < 0 → (ddriver_seek posix m fd offset SEEK_CUR).2 = -1) ∧
      (m.os.size + offset < 0 → (ddriver_seek posix m fd offset SEEK_END).2 = -1)) ∧
    (fd = m.os.fd → 0 ≤ offset → offset ≤ CONFIG_DISK_SZ →
      (0 ≤ (ddriver_seek posix m fd offset SEEK_SET).2 ↔ offset % 512 = 0)) := by
  have only_if : ∀ {τ : Type} (sy : Sys τ) (M : Machine τ) (w : Int),
      0 ≤ (ddriver_seek sy M fd offset w).2 → offset % 512 = 0 := by
    intro τ sy M w h
    by_contra ha
    rw [ddriver_seek_of_misaligned sy M fd offset w ha] at h
    simp at h
  refine ⟨only_if sys g whence, ?_, ?_, ?_⟩
  · intro hfd ha
    obtain ⟨t1, t2, t3⟩ := posix_lseek_targets m.os fd offset hfd
    exact ⟨(ddriver_seek_target m fd offset SEEK_SET _ ha t1).1,
      (ddriver_seek_target m fd offset SEEK_CUR _ ha t2).1,
      (ddriver_seek_target m fd offset SEEK_END _ ha t3).1⟩
  · intro hfd ha
    obtain ⟨t1, t2, t3⟩ := posix_lseek_targets m.os fd offset hfd
    exact ⟨(ddriver_seek_target m fd offset SEEK_SET _ ha t1).2,
      (ddriver_seek_target m fd offset SEEK_CUR _ ha t2).2,
      (ddriver_seek_target m fd offset SEEK_END _ ha t3).2⟩
  · intro hfd h0 h1
    constructor
    · exact only_if posix m SEEK_SET
    · intro ha
      rw [(ddriver_seek_target m fd offset SEEK_SET _ ha
        (posix_lseek_targets m.os fd offset hfd).1).1 h0 h1]
      exact h0

/-- C2 at offset 1024 with `SEEK_SET` on a device just opened. -/
theorem seek_success_conditions_witness :
    ((3 : Int) = (device_opened 3 (fun _ => 0)).os.fd ∧ (0 : Int) ≤ 1024 ∧
      (1024 : Int) ≤ CONFIG_DISK_SZ) ∧
    (0 ≤ (ddriver_seek posix (device_opened 3 (fun _ => 0)) 3 1024 SEEK_SET).2 ↔
      (1024 : Int) % 512 = 0) :=
  ⟨⟨rfl, by decide, by decide⟩,
    (seek_success_conditions posix (device_opened 3 (fun _ => 0)) (device_opened 3 (fun _ => 0))
      3 1024 SEEK_SET).2.2.2 rfl (by decide) (by decide)⟩

/-! ## C5: the counter at INT_MAX -/

/-- The host's `lseek` never changes the descriptor number. -/
theorem posix_lseek_fd (s : Store) (fd offset whence : Int) :
    (posix_lseek s fd offset whence).1.fd = s.fd := by
  simp only [posix_lseek, lseek_to]
  split_ifs <;> rfl

/-- Seeking `n` times to offset 0 counts `seek_cnt` up by `n`, as long as it
stays within `int`. -/
theorem run_seeks_count (c : IocCodes) (fd : Int) :
    ∀ (n : Nat) (m : Machine Store), m.os.fd = fd → 0 ≤ m.disk.seek_cnt →
      m.disk.seek_cnt + n ≤ 2147483647 →
      (run c posix m (List.replicate n (Op.seek fd 0 SEEK_SET))).os.fd = fd ∧
      (run c posix m (List.replicate n (Op.seek fd 0 SEEK_SET))).disk.seek_cnt =
        m.disk.seek_cnt + n := by
  intro n
  induction n with
  | zero =>
    intro m hfd _ _
    simp [run_nil, hfd]
  | succ n ih =>
    intro m hfd h0 h1
    rw [List.replicate_succ, run_cons, step_seek]
    have hs := ddriver_seek_posix m fd 0 SEEK_SET (by decide)
    have hc : (ddriver_seek posix m fd 0 SEEK_SET).1.disk.seek_cnt = m.disk.seek_cnt + 1 := by
      rw [hs.2.2]
      exact toInt32_of_range _ (by omega) (by omega)
    have := ih (ddriver_seek posix m fd 0 SEEK_SET).1
      (by rw [hs.1, posix_lseek_fd]; exact hfd) (by omega) (by rw [hc]; push_cast at h1; omega)
    rw [this.1, this.2, hc]
    push_cast
    exact ⟨rfl, by omega⟩

/-- C5 fails when the counter is at `INT_MAX`: 2147483647 seeks to offset 0 from
a device just opened leave `seek_cnt = 2147483647`; the next seek to offset 0
succeeds (it returns 0) and leaves `seek_cnt = -2147483648`, not one more. -/
theorem seek_counter_wraps :
    (run sample_codes posix (device_opened 3 (fun _ => 0))
      (List.replicate 2147483647 (Op.seek 3 0 SEEK_SET))).disk.seek_cnt = 2147483647 ∧
    (ddriver_seek posix
      (run sample_codes posix (device_opened 3 (fun _ => 0))
        (List.replicate 2147483647 (Op.seek 3 0 SEEK_SET))) 3 0 SEEK_SET).2 = 0 ∧
    (ddriver_seek posix
      (run sample_codes posix (device_opened 3 (fun _ => 0))
        (List.replicate 2147483647 (Op.seek 3 0 SEEK_SET))) 3 0 SEEK_SET).1.disk.seek_cnt =
      -2147483648 := by
  have h := run_seeks_count sample_codes 3 2147483647 (device_opened 3 (fun _ => 0)) rfl
    (by decide) (by decide)
  generalize run sample_codes posix (device_opened 3 (fun _ => 0))
    (List.replicate 2147483647 (Op.seek 3 0 SEEK_SET)) = m at h
  obtain ⟨hfd, hc⟩ := h
  have hc2 : m.disk.seek_cnt = 2147483647 := by rw [hc]; rfl
  have hs := ddriver_seek_posix m 3 0 SEEK_SET (by decide)
  refine ⟨hc2, ?_, ?_⟩
  · rw [hs.2.1, posix_lseek_rewind m.os 3 hfd.symm]
    rfl
  · rw [hs.2.2]
    simp only [hc2]
    rfl

/-- C5 on a device just opened: a seek to 512, a read and a write of one block. -/
theorem successful_call_counts_once_witness :
    (0 ≤ (ddriver_seek posix (device_opened 3 (fun _ => 0)) 3 512 SEEK_SET).2 ∧
      (-2147483648 : Int) ≤ (device_opened 3 (fun _ => 0)).disk.seek_cnt ∧
      (device_opened 3 (fun _ => 0)).disk.seek_cnt < INT_MAX) ∧
    (ddriver_seek posix (device_opened 3 (fun _ => 0)) 3 512 SEEK_SET).1.disk.seek_cnt =
      (device_opened 3 (fun _ => 0)).disk.seek_cnt + 1 ∧
    (ddriver_seek posix (device_opened 3 (fun _ => 0)) 3 512 SEEK_SET).1.disk.read_cnt =
      (device_opened 3 (fun _ => 0)).disk.read_cnt ∧
    (ddriver_seek posix (device_opened 3 (fun _ => 0)) 3 512 SEEK_SET).1.disk.write_cnt =
      (device_opened 3 (fun _ => 0)).disk.write_cnt :=
  ⟨⟨by decide, by decide, by decide⟩,
    (successful_call_counts_once posix (device_opened 3 (fun _ => 0)) 3 512 SEEK_SET (fun _ => 0)
      512).1 (by decide) (by decide) (by decide)⟩

/-! ## C1: the write, seek, read scenario -/

/-- C1 as the code has it: from a device just opened (on descriptor `fd`, holding
`contents`), write one block of 0xAB at offset 0, seek to offset 512, read one
block. The three calls return 512, the read buffer holds bytes 512 .. 1023 of
the store as they were at open, not the block written at offset 0, and the
three counters are 1. When the seek goes to offset 0 instead, the read buffer
holds the 512 bytes of 0xAB, and the three counters are 1 as well. -/
theorem scenario_write_seek_read (fd : Int) (contents : Int → Nat) (out : Buf) :
    ((ddriver_write posix (device_opened fd contents) fd (fun _ => 0xAB) 512).2 = 512 ∧
      (ddriver_seek posix
        (ddriver_write posix (device_opened fd contents) fd (fun _ => 0xAB) 512).1
        fd 512 SEEK_SET).2 = 512 ∧
      (ddriver_read posix
        (ddriver_seek posix
          (ddriver_write posix (device_opened fd contents) fd (fun _ => 0xAB) 512).1
          fd 512 SEEK_SET).1 fd out 512).2.2 = 512) ∧
    (∀ i, i < 512 →
      (ddriver_read posix
        (ddriver_seek posix
          (ddriver_write posix (device_opened fd contents) fd (fun _ => 0xAB) 512).1
          fd 512 SEEK_SET).1 fd out 512).2.1 i = contents (512 + i)) ∧
    ((ddriver_read posix
        (ddriver_seek posix
          (ddriver_write posix (device_opened fd contents) fd (fun _ => 0xAB) 512).1
          fd 512 SEEK_SET).1 fd out 512).1.disk.write_cnt = 1 ∧
      (ddriver_read posix
        (ddriver_seek posix
          (ddriver_write posix (device_opened fd contents) fd (fun _ => 0xAB) 512).1
          fd 512 SEEK_SET).1 fd out 512).1.disk.read_cnt = 1 ∧
      (ddriver_read posix
        (ddriver_seek posix
          (ddriver_write posix (device_opened fd contents) fd (fun _ => 0xAB) 512).1
          fd 512 SEEK_SET).1 fd out 512).1.disk.seek_cnt = 1) ∧
    (∀ i, i < 512 →
      (ddriver_read posix
        (ddriver_seek posix
          (ddriver_write posix (device_opened fd contents) fd (fun _ => 0xAB) 512).1
          fd 0 SEEK_SET).1 fd out 512).2.1 i = 0xAB) ∧
    ((ddriver_read posix
        (ddriver_seek posix
          (ddriver_write posix (device_opened fd contents) fd (fun _ => 0xAB) 512).1
          fd 0 SEEK_SET).1 fd out 512).1.disk.write_cnt = 1 ∧
      (ddriver_read posix
        (ddriver_seek posix
          (ddriver_write posix (device_opened fd contents) fd (fun _ => 0xAB) 512).1
          fd 0 SEEK_SET).1 fd out 512).1.disk.read_cnt = 1 ∧
      (ddriver_read posix
        (ddriver_seek posix
          (ddriver_write posix (device_opened fd contents) fd (fun _ => 0xAB) 512).1
          fd 0 SEEK_SET).1 fd out 512).1.disk.seek_cnt = 1) := by
  have hm : (ddriver_write posix (device_opened fd contents) fd (fun _ => 0xAB) 512).1 =
      { disk := { disk with write_cnt := 1 }
        os :=
          { fd := fd
            size := 4194304
            pos := 512
            data := fun i =>
              if 0 ≤ i ∧ i < 512 then 171 else if i < 4194304 then contents i else 0 }
        slept := 1000 } := by
    simp [ddriver_write_block, RW_DELAY_write, usleep, INC_WRITECNT, posix, posix_write,
      device_opened, disk, CONFIG_DISK_SZ, OFF_MAX, toInt32, toUInt32]
  have hw : (ddriver_write posix (device_opened fd contents) fd (fun _ => 0xAB) 512).2 = 512 := by
    rw [ddriver_write_block]
  rw [hw]
  have hfd : fd = (ddriver_write posix (device_opened fd contents) fd (fun _ => 0xAB) 512).1.os.fd := by
    rw [hm]
  have hsz : (ddriver_write posix (device_opened fd contents) fd (fun _ => 0xAB) 512).1.os.size =
      4194304 := by rw [hm]
  have hdata : (ddriver_write posix (device_opened fd contents) fd (fun _ => 0xAB) 512).1.os.data =
      fun i => if 0 ≤ i ∧ i < 512 then 171 else if i < 4194304 then contents i else 0 := by
    rw [hm]
  have hdisk : (ddriver_write posix (device_opened fd contents) fd (fun _ => 0xAB) 512).1.disk =
      { disk with write_cnt := 1 } := by rw [hm]
  clear hm hw
  generalize (ddriver_write posix (device_opened fd contents) fd (fun _ => 0xAB) 512).1 = M
    at hfd hsz hdata hdisk ⊢
  have hl : ∀ o : Int, 0 ≤ o → o ≤ 512 →
      posix_lseek M.os fd o SEEK_SET = ({ M.os with pos := o }, o) := by
    intro o h0 h1
    simp only [posix_lseek, lseek_to, hfd, ne_eq, not_true_eq_false, if_false, if_true, OFF_MAX]
    rw [if_neg (by omega)]
  have hs512 := ddriver_seek_posix M fd 512 SEEK_SET (by decide)
  have hs0 := ddriver_seek_posix M fd 0 SEEK_SET (by decide)
  rw [hl 512 (by decide) (by decide)] at hs512
  rw [hl 0 (by decide) (by decide)] at hs0
  have hcnt : ∀ S : Machine Store, S.disk = ({ disk with write_cnt := 1, seek_cnt := 1 } : ddriver) →
      (ddriver_read posix S fd out 512).1.disk.write_cnt = 1 ∧
      (ddriver_read posix S fd out 512).1.disk.read_cnt = 1 ∧
      (ddriver_read posix S fd out 512).1.disk.seek_cnt = 1 := by
    intro S hS
    rw [ddriver_read_block]
    simp only [INC_READCNT, RW_DELAY_read, usleep, hS, disk]
    exact ⟨trivial, by decide, trivial⟩
  have hd : ∀ o : Int, (ddriver_seek posix M fd o SEEK_SET).1.disk =
      { M.disk with seek_cnt := toInt32 (M.disk.seek_cnt + 1) } →
      (ddriver_seek posix M fd o SEEK_SET).1.disk =
        ({ disk with write_cnt := 1, seek_cnt := 1 } : ddriver) := by
    intro o h
    rw [h, hdisk]
    simp only [disk]
    have : toInt32 (0 + 1) = 1 := by decide
    rw [this]
  refine ⟨⟨rfl, ?_, ?_⟩, ?_, hcnt _ (hd 512 hs512.2.2), ?_, hcnt _ (hd 0 hs0.2.2)⟩
  · rw [hs512.2.1]
    rfl
  · rw [ddriver_read_block]
  · intro i hi
    rw [seek_then_read_block M fd 512 out hfd (by decide) (by decide) (by rw [hsz]; decide)
      (by decide) i hi, hdata]
    simp only
    rw [if_neg (by omega), if_pos (by omega)]
  · intro i hi
    rw [seek_then_read_block M fd 0 out hfd (by decide) (by decide) (by rw [hsz]; decide)
      (by decide) i hi, hdata]
    simp only
    rw [if_pos (by omega)]

/-- C1 as the code has it, on descriptor 3 and an all-zero store: the byte read
at index 7 is the store's byte 519 and the byte read after a seek to 0 is 0xAB. -/
theorem scenario_write_seek_read_witness :
    (7 < 512 ∧
      (ddriver_read posix
        (ddriver_seek posix
          (ddriver_write posix (device_opened 3 (fun _ => 0)) 3 (fun _ => 0xAB) 512).1
          3 512 SEEK_SET).1 3 (fun _ => 9) 512).2.1 7 = (fun _ => 0) ((512 : Int) + (7 : Nat))) ∧
    (ddriver_read posix
        (ddriver_seek posix
          (ddriver_write posix (device_opened 3 (fun _ => 0)) 3 (fun _ => 0xAB) 512).1
          3 0 SEEK_SET).1 3 (fun _ => 9) 512).2.1 7 = 0xAB :=
  ⟨⟨by decide,
      (scenario_write_seek_read 3 (fun _ => 0) (fun _ => 9)).2.1 7 (by decide)⟩,
    (scenario_write_seek_read 3 (fun _ => 0) (fun _ => 9)).2.2.2.1 7 (by decide)⟩

/-- C1 fails on a device just opened on an all-zero store: after the write of
0xAB at offset 0 and the seek to 512, the block read starts with a zero byte. -/
theorem scenario_reads_second_block :
    ¬ (∀ i, i < 512 →
      (ddriver_read posix
        (ddriver_seek posix
          (ddriver_write posix (device_opened 3 (fun _ => 0)) 3 (fun _ => 0xAB) 512).1
          3 512 SEEK_SET).1 3 (fun _ => 0) 512).2.1 i = 0xAB) := by
  intro h
  have h0 := h 0 (by decide)
  revert h0
  decide

/-! ## The configuration in the states an open session reaches -/

/-- No call changes the configuration fields of the global `disk`, on any host. -/
theorem step_keeps_config {σ : Type} (c : IocCodes) (sys : Sys σ) (m : Machine σ) (op : Op)
    (h : shipped_config m.disk) : shipped_config (step c sys m op).disk := by
  cases op with
  | seek fd offset whence =>
    rw [step_seek]
    unfold ddriver_seek
    simp only [INC_SEEKCNT]
    split_ifs <;> first
      | exact h
      | (rw [(emulate_rotate_frame _ _ _ _).2]; exact h)
  | read fd buf size =>
    rw [step_read]
    unfold ddriver_read
    simp only [INC_READCNT, RW_DELAY_read, usleep]
    split_ifs <;> exact h
  | write fd buf size =>
    rw [step_write]
    unfold ddriver_write
    simp only [INC_WRITECNT, RW_DELAY_write, usleep]
    split_ifs <;> exact h
  | ioctl fd cmd arg =>
    rw [step_ioctl]
    unfold ddriver_ioctl
    split_ifs <;> exact h

/-- No sequence of calls changes the configuration fields, on any host. -/
theorem run_keeps_config {σ : Type} (c : IocCodes) (sys : Sys σ) (ops : List Op) :
    ∀ m : Machine σ, shipped_config m.disk → shipped_config (run c sys m ops).disk := by
  induction ops with
  | nil => intro m h; exact h
  | cons op ops ih =>
    intro m h
    rw [run_cons]
    exact ih _ (step_keeps_config c sys m op h)

/-- A device just opened has the shipped configuration. -/
theorem device_opened_config (fd : Int) (contents : Int → Nat) :
    shipped_config (device_opened fd contents).disk :=
  ⟨rfl, rfl, rfl, rfl, rfl, rfl⟩

/-! ## C12, C13, C14: the control channel -/

/-- The two size queries with the shipped configuration, on any host: 512 and
4194304 are copied to `arg`, 0 is returned, and the machine is as before. -/
theorem ddriver_ioctl_sizes {σ : Type} (c : IocCodes) (sys : Sys σ) (m : Machine σ) (fd : Int)
    (arg : ArgMem) (h : shipped_config m.disk) :
    ddriver_ioctl c sys m fd c.IOC_REQ_DEVICE_IO_SZ arg = (m, ArgMem.int 512, 0) ∧
    ddriver_ioctl c sys m fd c.IOC_REQ_DEVICE_SIZE arg = (m, ArgMem.int 4194304, 0) := by
  obtain ⟨-, -, h3, -, h5, h6⟩ := c.distinct
  obtain ⟨-, -, -, -, a5, a6⟩ := h
  constructor
  · simp only [ddriver_ioctl, if_neg (Ne.symm h3), if_neg (Ne.symm h5), if_neg (Ne.symm h6),
      if_true, a6, CONFIG_BLOCK_SZ]
  · simp only [ddriver_ioctl, if_true, a5, CONFIG_DISK_SZ]
    rfl

/-- C12: in every state reached from a device just opened by any sequence of
calls, `ddriver_ioctl` with `IOC_REQ_DEVICE_IO_SZ` copies 512 to `arg` and with
`IOC_REQ_DEVICE_SIZE` copies 4194304 to `arg`; both return 0 and leave the whole
machine (counters, cursor, backing-store contents) as it was. -/
theorem ioctl_reports_geometry (c : IocCodes) (fd : Int) (contents : Int → Nat)
    (ops : List Op) (fd1 : Int) (arg : ArgMem) :
    ddriver_ioctl c posix (run c posix (device_opened fd contents) ops) fd1
        c.IOC_REQ_DEVICE_IO_SZ arg =
      (run c posix (device_opened fd contents) ops, ArgMem.int 512, 0) ∧
    ddriver_ioctl c posix (run c posix (device_opened fd contents) ops) fd1
        c.IOC_REQ_DEVICE_SIZE arg =
      (run c posix (device_opened fd contents) ops, ArgMem.int 4194304, 0) :=
  ddriver_ioctl_sizes c posix _ fd1 arg
    (run_keeps_config c posix ops _ (device_opened_config fd contents))

/-- C13: `ddriver_ioctl` with `IOC_REQ_DEVICE_STATE`, in every state and on every
host, copies to `arg` a snapshot whose `read_cnt`, `write_cnt` and `seek_cnt`
are the current `disk.read_cnt`, `disk.write_cnt` and `disk.seek_cnt`, returns
0 and leaves the whole machine as it was. -/
theorem ioctl_state_snapshot {σ : Type} (c : IocCodes) (sys : Sys σ) (m : Machine σ) (fd : Int)
    (arg : ArgMem) :
    ddriver_ioctl c sys m fd c.IOC_REQ_DEVICE_STATE arg =
      (m, ArgMem.state
        { read_cnt := m.disk.read_cnt, write_cnt := m.disk.write_cnt,
          seek_cnt := m.disk.seek_cnt }, 0) := by
  obtain ⟨h1, -, -, -, -, -⟩ := c.distinct
  simp only [ddriver_ioctl, if_neg (Ne.symm h1), if_true]

/-- C14: `ddriver_ioctl` returns 0 for every command code, in every state and on
every host; for a code that is none of the four commands it leaves the whole
machine (counters, cursor, backing-store contents) and the memory behind `arg`
as they were. -/
theorem ioctl_lenient {σ : Type} (c : IocCodes) (sys : Sys σ) (m : Machine σ) (fd : Int)
    (cmd : Nat) (arg : ArgMem) :
    (ddriver_ioctl c sys m fd cmd arg).2.2 = 0 ∧
    (cmd ≠ c.IOC_REQ_DEVICE_SIZE → cmd ≠ c.IOC_REQ_DEVICE_STATE →
      cmd ≠ c.IOC_REQ_DEVICE_RESET → cmd ≠ c.IOC_REQ_DEVICE_IO_SZ →
      ddriver_ioctl c sys m fd cmd arg = (m, arg, 0)) := by
  constructor
  · unfold ddriver_ioctl
    split_ifs <;> rfl
  · intro h1 h2 h3 h4
    simp only [ddriver_ioctl, if_neg h1, if_neg h2, if_neg h3, if_neg h4]

/-- C14 at command code 77 on a device just opened. -/
theorem ioctl_lenient_witness :
    (77 ≠ sample_codes.IOC_REQ_DEVICE_SIZE ∧ 77 ≠ sample_codes.IOC_REQ_DEVICE_STATE ∧
      77 ≠ sample_codes.IOC_REQ_DEVICE_RESET ∧ 77 ≠ sample_codes.IOC_REQ_DEVICE_IO_SZ) ∧
    ddriver_ioctl sample_codes posix (device_opened 3 (fun _ => 0)) 3 77 (ArgMem.caller 5) =
      (device_opened 3 (fun _ => 0), ArgMem.caller 5, 0) :=
  ⟨by decide,
    (ioctl_lenient sample_codes posix (device_opened 3 (fun _ => 0)) 3 77 (ArgMem.caller 5)).2
      (by decide) (by decide) (by decide) (by decide)⟩

/-! ## C11: the counters over a session -/

/-- Running one sequence of calls after another. -/
theorem run_append {σ : Type} (c : IocCodes) (sys : Sys σ) (l1 l2 : List Op) :
    ∀ m : Machine σ, run c sys m (l1 ++ l2) = run c sys (run c sys m l1) l2 := by
  induction l1 with
  | nil => intro m; rfl
  | cons op l1 ih =>
    intro m
    rw [List.cons_append, run_cons, run_cons, ih]

/-- What one call does to the counters, on any host: each counter is left as it
was or counted up once, unless the call is the reset command, which zeroes
all three. -/
theorem step_counters {σ : Type} (c : IocCodes) (sys : Sys σ) (m : Machine σ) (op : Op) :
    (((step c sys m op).disk.read_cnt = m.disk.read_cnt ∨
        (step c sys m op).disk.read_cnt = toInt32 (m.disk.read_cnt + 1)) ∧
      ((step c sys m op).disk.write_cnt = m.disk.write_cnt ∨
        (step c sys m op).disk.write_cnt = toInt32 (m.disk.write_cnt + 1)) ∧
      ((step c sys m op).disk.seek_cnt = m.disk.seek_cnt ∨
        (step c sys m op).disk.seek_cnt = toInt32 (m.disk.seek_cnt + 1))) ∨
    ((∃ fd arg, op = Op.ioctl fd c.IOC_REQ_DEVICE_RESET arg) ∧
      (step c sys m op).disk.read_cnt = 0 ∧ (step c sys m op).disk.write_cnt = 0 ∧
      (step c sys m op).disk.seek_cnt = 0) := by
  cases op with
  | seek fd offset whence =>
    left
    rw [step_seek]
    unfold ddriver_seek
    simp only [INC_SEEKCNT]
    split_ifs <;> first
      | exact ⟨Or.inl rfl, Or.inl rfl, Or.inl rfl⟩
      | exact ⟨Or.inl rfl, Or.inl rfl, Or.inr rfl⟩
      | (rw [(emulate_rotate_frame _ _ _ _).2]; exact ⟨Or.inl rfl, Or.inl rfl, Or.inr rfl⟩)
  | read fd buf size =>
    left
    rw [step_read]
    unfold ddriver_read
    simp only [INC_READCNT, RW_DELAY_read, usleep]
    split_ifs
    · exact ⟨Or.inl rfl, Or.inl rfl, Or.inl rfl⟩
    · exact ⟨Or.inr rfl, Or.inl rfl, Or.inl rfl⟩
  | write fd buf size =>
    left
    rw [step_write]
    unfold ddriver_write
    simp only [INC_WRITECNT, RW_DELAY_write, usleep]
    split_ifs
    · exact ⟨Or.inl rfl, Or.inl rfl, Or.inl rfl⟩
    · exact ⟨Or.inl rfl, Or.inr rfl, Or.inl rfl⟩
  | ioctl fd cmd arg =>
    rw [step_ioctl]
    unfold ddriver_ioctl
    split_ifs with h1 h2 h3 h4
    · exact Or.inl ⟨Or.inl rfl, Or.inl rfl, Or.inl rfl⟩
    · exact Or.inl ⟨Or.inl rfl, Or.inl rfl, Or.inl rfl⟩
    · exact Or.inr ⟨⟨fd, arg, by rw [h3]⟩, rfl, rfl, rfl⟩
    · exact Or.inl ⟨Or.inl rfl, Or.inl rfl, Or.inl rfl⟩
    · exact Or.inl ⟨Or.inl rfl, Or.inl rfl, Or.inl rfl⟩

/-- After `k` calls with all counters in `[0, k]`, a sequence of further calls
that keeps the total at 2147483647 or less leaves all counters in
`[0, total]`, on any host. -/
theorem run_counters_bounded {σ : Type} (c : IocCodes) (sys : Sys σ) (ops : List Op) :
    ∀ (m : Machine σ) (k : Int),
      (0 ≤ m.disk.read_cnt ∧ m.disk.read_cnt ≤ k) →
      (0 ≤ m.disk.write_cnt ∧ m.disk.write_cnt ≤ k) →
      (0 ≤ m.disk.seek_cnt ∧ m.disk.seek_cnt ≤ k) →
      k + ops.length ≤ 2147483647 →
      (0 ≤ (run c sys m ops).disk.read_cnt ∧ (run c sys m ops).disk.read_cnt ≤ k + ops.length) ∧
      (0 ≤ (run c sys m ops).disk.write_cnt ∧
        (run c sys m ops).disk.write_cnt ≤ k + ops.length) ∧
      (0 ≤ (run c sys m ops).disk.seek_cnt ∧
        (run c sys m ops).disk.seek_cnt ≤ k + ops.length) := by
  induction ops with
  | nil =>
    intro m k hr hw hs _
    simp only [run_nil, List.length_nil, Nat.cast_zero, add_zero]
    exact ⟨hr, hw, hs⟩
  | cons op ops ih =>
    intro m k hr hw hs hk
    simp only [List.length_cons, Nat.cast_add, Nat.cast_one] at hk ⊢
    rw [run_cons]
    have e1 := toInt32_of_range (m.disk.read_cnt + 1) (by omega) (by omega)
    have e2 := toInt32_of_range (m.disk.write_cnt + 1) (by omega) (by omega)
    have e3 := toInt32_of_range (m.disk.seek_cnt + 1) (by omega) (by omega)
    have hstep := step_counters c sys m op
    rw [e1, e2, e3] at hstep
    have := ih (step c sys m op) (k + 1)
      (by rcases hstep with ⟨h | h, -, -⟩ | ⟨-, h, -, -⟩ <;> rw [h] <;> omega)
      (by rcases hstep with ⟨-, h | h, -⟩ | ⟨-, -, h, -⟩ <;> rw [h] <;> omega)
      (by rcases hstep with ⟨-, -, h | h⟩ | ⟨-, -, -, h⟩ <;> rw [h] <;> omega)
      (by omega)
    have e : k + 1 + (ops.length : Int) = k + (ops.length + 1) := by omega
    rw [e] at this
    exact this

/-- The reset command zeroes the three counters, on any host. -/
theorem ddriver_ioctl_reset_counters {σ : Type} (c : IocCodes) (sys : Sys σ) (m : Machine σ)
    (fd : Int) (arg : ArgMem) :
    (ddriver_ioctl c sys m fd c.IOC_REQ_DEVICE_RESET arg).1.disk.read_cnt = 0 ∧
    (ddriver_ioctl c sys m fd c.IOC_REQ_DEVICE_RESET arg).1.disk.write_cnt = 0 ∧
    (ddriver_ioctl c sys m fd c.IOC_REQ_DEVICE_RESET arg).1.disk.seek_cnt = 0 := by
  obtain ⟨-, h2, -, h4, -, -⟩ := c.distinct
  simp only [ddriver_ioctl, if_neg (Ne.symm h2), if_neg (Ne.symm h4), if_true]
  exact ⟨trivial, trivial, trivial⟩

/-- C11 fails once a counter has reached `INT_MAX`: after 2147483648 seeks to
offset 0 from a device just opened, none of them a reset, `seek_cnt` is
-2147483648, negative and smaller than the 2147483647 it was one call before. -/
theorem seek_counter_negative :
    (run sample_codes posix (device_opened 3 (fun _ => 0))
      (List.replicate 2147483647 (Op.seek 3 0 SEEK_SET))).disk.seek_cnt = 2147483647 ∧
    (run sample_codes posix (device_opened 3 (fun _ => 0))
      (List.replicate 2147483647 (Op.seek 3 0 SEEK_SET) ++ [Op.seek 3 0 SEEK_SET])).disk.seek_cnt =
      -2147483648 := by
  have h := run_seeks_count sample_codes 3 2147483647 (device_opened 3 (fun _ => 0)) rfl
    (by decide) (by decide)
  rw [run_append, run_cons, run_nil, step_seek]
  generalize run sample_codes posix (device_opened 3 (fun _ => 0))
    (List.replicate 2147483647 (Op.seek 3 0 SEEK_SET)) = m at h
  have hc2 : m.disk.seek_cnt = 2147483647 := by rw [h.2]; rfl
  refine ⟨hc2, ?_⟩
  rw [(ddriver_seek_posix m 3 0 SEEK_SET (by decide)).2.2]
  simp only [hc2]
  rfl

/-- C11 within the range of `int`: over every sequence of at most 2147483647
calls from a device just opened the three counters are non-negative; on any
host, a call other than the reset command does not make a counter smaller when
that counter is an `int` below `INT_MAX`; and the reset command sets all three
counters to 0. -/
theorem counters_over_session {σ : Type} (c : IocCodes) (fd : Int) (contents : Int → Nat)
    (ops : List Op) (sys : Sys σ) (m : Machine σ) (op : Op) (fd1 : Int) (arg : ArgMem) :
    (ops.length ≤ 2147483647 →
      0 ≤ (run c posix (device_opened fd contents) ops).disk.read_cnt ∧
      0 ≤ (run c posix (device_opened fd contents) ops).disk.write_cnt ∧
      0 ≤ (run c posix (device_opened fd contents) ops).disk.seek_cnt) ∧
    ((∀ fd2 arg2, op ≠ Op.ioctl fd2 c.IOC_REQ_DEVICE_RESET arg2) →
      (-2147483648 ≤ m.disk.read_cnt → m.disk.read_cnt < INT_MAX →
        m.disk.read_cnt ≤ (step c sys m op).disk.read_cnt) ∧
      (-2147483648 ≤ m.disk.write_cnt → m.disk.write_cnt < INT_MAX →
        m.disk.write_cnt ≤ (step c sys m op).disk.write_cnt) ∧
      (-2147483648 ≤ m.disk.seek_cnt → m.disk.seek_cnt < INT_MAX →
        m.disk.seek_cnt ≤ (step c sys m op).disk.seek_cnt)) ∧
    ((ddriver_ioctl c sys m fd1 c.IOC_REQ_DEVICE_RESET arg).1.disk.read_cnt = 0 ∧
      (ddriver_ioctl c sys m fd1 c.IOC_REQ_DEVICE_RESET arg).1.disk.write_cnt = 0 ∧
      (ddriver_ioctl c sys m fd1 c.IOC_REQ_DEVICE_RESET arg).1.disk.seek_cnt = 0) := by
  refine ⟨?_, ?_, ddriver_ioctl_reset_counters c sys m fd1 arg⟩
  · intro hl
    have hb := run_counters_bounded c posix ops (device_opened fd contents) 0
      ⟨le_refl _, le_refl _⟩ ⟨le_refl _, le_refl _⟩ ⟨le_refl _, le_refl _⟩ (by omega)
    exact ⟨hb.1.1, hb.2.1.1, hb.2.2.1⟩
  · intro hop
    rcases step_counters c sys m op with ⟨hr, hw, hs⟩ | ⟨⟨fd2, arg2, he⟩, -⟩
    · unfold INT_MAX
      refine ⟨?_, ?_, ?_⟩
      · intro h1 h2
        rcases hr with h | h
        · rw [h]
        · rw [h, toInt32_of_range _ (by omega) (by omega)]
          omega
      · intro h1 h2
        rcases hw with h | h
        · rw [h]
        · rw [h, toInt32_of_range _ (by omega) (by omega)]
          omega
      · intro h1 h2
        rcases hs with h | h
        · rw [h]
        · rw [h, toInt32_of_range _ (by omega) (by omega)]
          omega
    · exact absurd he (hop fd2 arg2)

/-- C11 on a device just opened: after a seek, a write and a read the counters
are non-negative. -/
theorem counters_over_session_witness :
    [Op.seek 3 512 SEEK_SET, Op.write 3 (fun _ => 1) 512, Op.read 3 (fun _ => 0) 512].length ≤
      2147483647 ∧
    0 ≤ (run sample_codes posix (device_opened 3 (fun _ => 0))
      [Op.seek 3 512 SEEK_SET, Op.write 3 (fun _ => 1) 512,
        Op.read 3 (fun _ => 0) 512]).disk.read_cnt :=
  ⟨by decide,
    ((counters_over_session sample_codes 3 (fun _ => 0)
      [Op.seek 3 512 SEEK_SET, Op.write 3 (fun _ => 1) 512, Op.read 3 (fun _ => 0) 512]
      posix (device_opened 3 (fun _ => 0)) (Op.seek 3 0 SEEK_SET) 3 (ArgMem.caller 0)).1
      (by decide)).1⟩

/-! ## C15: closing -/

/-- When the host's `close` returns 0, `ddriver_close` never calls `fclose`: it
returns 0 and leaves the host as `close` left it, whatever `fclose` would do. -/
theorem ddriver_close_of_close_ok {σ : Type} (close : σ → Int → σ × Int)
    (fclose : σ → σ × Int) (s : σ) (fd : Int) (h : (close s fd).2 = 0) :
    ddriver_close close fclose s fd = ((close s fd).1, 0) := by
  simp [ddriver_close, h]

/-- C15 at an open session on descriptor 3: `ddriver_close(3)` returns 0 with the
descriptor released and the log stream still open; the log stream is released
only when `close` fails, as for the descriptor 4 that is not open, and then the
descriptor 3 stays open. -/
theorem close_leaves_log_open :
    ddriver_close host_close host_fclose { fd := 3, fd_open := true, log_open := true } 3 =
      ({ fd := 3, fd_open := false, log_open := true }, 0) ∧
    ddriver_close host_close host_fclose { fd := 3, fd_open := true, log_open := true } 4 =
      ({ fd := 3, fd_open := true, log_open := false }, 0) := by
  constructor <;> rfl

/-! ## C16: opening -/

/-- When the path is the device path and `open` gave a descriptor, a positive
value of `posix_fallocate` does not stop `ddriver_open`: with the log opened it
returns the descriptor. -/
theorem ddriver_open_of_fallocate_pos (e : OpenEnv) (path : String)
    (hp : e.pw_dir ++ "/ddriver" = path)
    (hfd : 0 ≤ (if e.access_ret = 0 then e.open_rdwr else e.open_creat))
    (hr : 0 < e.fallocate_ret) (hl : e.fopen_null = false) :
    ddriver_open e path = (if e.access_ret = 0 then e.open_rdwr else e.open_creat) := by
  unfold ddriver_open
  simp only [hp, ne_eq, not_true_eq_false, if_false, hl]
  rw [if_neg (by omega), if_neg (by omega)]
  simp

/-- The two failures `ddriver_open` does report: another path gives -1, and so
does a log that cannot be opened once `open` and `posix_fallocate` have given
non-negative values. -/
theorem ddriver_open_failures (e : OpenEnv) (path : String) :
    (e.pw_dir ++ "/ddriver" ≠ path → ddriver_open e path = -1) ∧
    (e.pw_dir ++ "/ddriver" = path →
      0 ≤ (if e.access_ret = 0 then e.open_rdwr else e.open_creat) → 0 ≤ e.fallocate_ret →
      e.fopen_null = true → ddriver_open e path = -1) := by
  constructor
  · intro hp
    simp [ddriver_open, hp]
  · intro hp hfd hr hl
    unfold ddriver_open
    simp only [hp, ne_eq, not_true_eq_false, if_false, hl, if_true]
    rw [if_neg (by omega), if_neg (by omega)]

/-- C16 at an allocation failure: with home directory `/home/u`, the device path
given, an existing file opened as descriptor 3, `posix_fallocate` returning 28
(`ENOSPC`) and the log opened, `ddriver_open` returns 3, not a negative value. -/
theorem open_ignores_allocation_failure :
    ddriver_open
      { pw_dir := "/home/u", access_ret := 0, open_rdwr := 3, open_creat := 3,
        fallocate_ret := 28, fopen_null := false } "/home/u/ddriver" = 3 := by
  rw [ddriver_open_of_fallocate_pos _ _ (by decide) (by decide) (by decide) rfl]
  rfl

/-! ## C17: the bound on the rotational delay -/

/-- With the shipped configuration a seek blocks the caller for at most 3000
microseconds, on any host. -/
theorem ddriver_seek_delay_le {σ : Type} (sys : Sys σ) (m : Machine σ) (fd offset whence : Int)
    (h : shipped_config m.disk) :
    (ddriver_seek sys m fd offset whence).1.slept - m.slept ≤ 3000 := by
  have key : ∀ (M : Machine σ) (a b : Int), shipped_config M.disk → M.slept = m.slept →
      (emulate_rotate M fd a b).1.slept - m.slept ≤ 3000 := by
    intro M a b hM hs
    rw [emulate_rotate_shipped M fd a b hM]
    simp only [hs, Nat.add_sub_cancel_left]
    have h5 := (rotate_arith_in_range (abs_int (b - a)) (abs_int_range (b - a))).2.2.2.2
    exact Int.toNat_le.mpr h5
  unfold ddriver_seek
  simp only [INC_SEEKCNT]
  split_ifs <;> first
    | exact key _ _ _ h rfl
    | (show m.slept - m.slept ≤ 3000; omega)

/-- C17: with the shipped configuration, for every pair of start and end
positions, `emulate_rotate` blocks the caller for the
`distance * 4 / 41943 * 1000` microseconds of the source, where `distance` is
`abs(end - start) % 41943` as the source computes it (`abs` of `int`, `/` and
`%` of C); neither `distance`, `distance * 4` nor the argument of `usleep`
leaves the range of `int`; the argument lies in `[0, 3000]`, so the delay is at
most 3000 microseconds, below the `seek_lat * 1000 = 4000` of one full
rotation; and a whole `ddriver_seek` blocks the caller for at most 3000
microseconds, on any host. -/
theorem rotate_delay_bounded {σ : Type} (sys : Sys σ) (m : Machine σ) (fd start end_ : Int)
    (offset whence : Int) (h : shipped_config m.disk) :
    rotate_delay m fd start end_ =
      (Int.tdiv (Int.tmod (abs_int (end_ - start)) 41943 * 4) 41943 * 1000).toNat ∧
    (toInt32 (Int.tmod (abs_int (end_ - start)) 41943) =
        Int.tmod (abs_int (end_ - start)) 41943 ∧
      toInt32 (Int.tmod (abs_int (end_ - start)) 41943 * 4) =
        Int.tmod (abs_int (end_ - start)) 41943 * 4 ∧
      toInt32 (Int.tdiv (Int.tmod (abs_int (end_ - start)) 41943 * 4) 41943 * 1000) =
        Int.tdiv (Int.tmod (abs_int (end_ - start)) 41943 * 4) 41943 * 1000) ∧
    (0 ≤ Int.tdiv (Int.tmod (abs_int (end_ - start)) 41943 * 4) 41943 * 1000 ∧
      Int.tdiv (Int.tmod (abs_int (end_ - start)) 41943 * 4) 41943 * 1000 ≤ 3000) ∧
    rotate_delay m fd start end_ ≤ 3000 ∧
    rotate_delay m fd start end_ ≤ (m.disk.seek_lat * 1000).toNat ∧
    (ddriver_seek sys m fd offset whence).1.slept - m.slept ≤ 3000 := by
  obtain ⟨a1, a2, a3, a4, a5⟩ :=
    rotate_arith_in_range (abs_int (end_ - start)) (abs_int_range (end_ - start))
  have hd : rotate_delay m fd start end_ =
      (Int.tdiv (Int.tmod (abs_int (end_ - start)) 41943 * 4) 41943 * 1000).toNat := by
    unfold rotate_delay
    rw [emulate_rotate_shipped m fd start end_ h]
    simp only [Nat.add_sub_cancel_left]
  have hl : m.disk.seek_lat = 4 := h.2.2.1
  have hle : rotate_delay m fd start end_ ≤ 3000 := by
    rw [hd]
    exact Int.toNat_le.mpr a5
  refine ⟨hd, ⟨a1, a2, a3⟩, ⟨a4, a5⟩, hle, ?_, ddriver_seek_delay_le sys m fd offset whence h⟩
  rw [hl]
  have : ((4 : Int) * 1000).toNat = 4000 := by decide
  rw [this]
  omega

/-- C17 for the move from 0 to 41942 on a device just opened: 3000 microseconds. -/
theorem rotate_delay_bounded_witness :
    shipped_config (device_opened 3 (fun _ => 0)).disk ∧
    rotate_delay (device_opened 3 (fun _ => 0)) 3 0 41942 ≤ 3000 :=
  ⟨⟨rfl, rfl, rfl, rfl, rfl, rfl⟩,
    (rotate_delay_bounded posix (device_opened 3 (fun _ => 0)) 3 0 41942 0 SEEK_SET
      ⟨rfl, rfl, rfl, rfl, rfl, rfl⟩).2.2.2.1⟩

/-! ## C18: writing a block and reading it back -/

/-- The host's `lseek` with `SEEK_SET` to a target within `off_t`, on the open
descriptor, puts the cursor there and returns the target. -/
theorem posix_lseek_set (s : Store) (fd o : Int) (hfd : fd = s.fd) (h0 : 0 ≤ o)
    (h1 : o ≤ OFF_MAX) : posix_lseek s fd o SEEK_SET = ({ s with pos := o }, o) := by
  subst hfd
  simp only [posix_lseek, lseek_to, ne_eq, not_true_eq_false, if_false, if_true]
  rw [if_neg (by omega)]

/-- The host's `lseek` and `read` change neither the contents nor the size of the file. -/
theorem posix_lseek_read_frame (s : Store) (fd offset whence : Int) (buf : Buf) (n : Nat) :
    ((posix_lseek s fd offset whence).1.data = s.data ∧
      (posix_lseek s fd offset whence).1.size = s.size) ∧
    ((posix_read s fd buf n).1.data = s.data ∧ (posix_read s fd buf n).1.size = s.size) := by
  constructor
  · simp only [posix_lseek, lseek_to]
    split_ifs <;> exact ⟨rfl, rfl⟩
  · simp only [posix_read]
    split_ifs <;> exact ⟨rfl, rfl⟩

/-- Seeking with `SEEK_SET` to an aligned offset `o` in `[0, OFF_MAX - 512]` and
writing one block there leaves the file with the block at `[o, o + 512)`, every
other byte of the file as it was, and the cursor behind the block. -/
theorem seek_then_write_block (m : Machine Store) (fd o : Int) (b : Buf) (hfd : fd = m.os.fd)
    (ha : o % 512 = 0) (h0 : 0 ≤ o) (h1 : o + 512 ≤ OFF_MAX) :
    (ddriver_write posix (ddriver_seek posix m fd o SEEK_SET).1 fd b 512).1.os =
      { fd := m.os.fd
        size := max m.os.size (o + 512)
        pos := o + 512
        data := fun j =>
          if o ≤ j ∧ j < o + 512 then b (j - o).toNat
          else if j < m.os.size then m.os.data j
          else 0 } := by
  have hs := (ddriver_seek_posix m fd o SEEK_SET ha).1
  rw [posix_lseek_set m.os fd o hfd h0 (by omega)] at hs
  rw [ddriver_write_block]
  show (posix_write (RW_DELAY_write (ddriver_seek posix m fd o SEEK_SET).1).os fd b 512).1 = _
  have hd : (RW_DELAY_write (ddriver_seek posix m fd o SEEK_SET).1).os =
      (ddriver_seek posix m fd o SEEK_SET).1.os := rfl
  rw [hd, hs]
  simp only
  rw [posix_write_ok { m.os with pos := o } fd b 512 hfd (by decide)
    (by simp only [Nat.cast_ofNat]; omega)]
  simp only [Nat.cast_ofNat]

/-- C18: in every state, on the device's descriptor `fd`, for every aligned offset
`o` with `0 ≤ o ≤ 4194304 - 512` and every buffer `b`, the calls
`ddriver_seek(fd, o, SEEK_SET)`, `ddriver_write(fd, b, 512)`,
`ddriver_seek(fd, o, SEEK_SET)`, `ddriver_read(fd, out, 512)` return `o`, 512,
`o`, 512 and leave the first 512 bytes of `out` equal to those of `b`; every
byte of the store outside `[o, o + 512)` is as before, and so is the size of a
store that held the block before. -/
theorem write_read_round_trip (m : Machine Store) (fd o : Int) (b out : Buf)
    (hfd : fd = m.os.fd) (ha : o % 512 = 0) (h0 : 0 ≤ o) (h1 : o ≤ CONFIG_DISK_SZ - 512) :
    ((ddriver_seek posix m fd o SEEK_SET).2 = o ∧
      (ddriver_write posix (ddriver_seek posix m fd o SEEK_SET).1 fd b 512).2 = 512 ∧
      (ddriver_seek posix
        (ddriver_write posix (ddriver_seek posix m fd o SEEK_SET).1 fd b 512).1
        fd o SEEK_SET).2 = o ∧
      (ddriver_read posix
        (ddriver_seek posix
          (ddriver_write posix (ddriver_seek posix m fd o SEEK_SET).1 fd b 512).1
          fd o SEEK_SET).1 fd out 512).2.2 = 512) ∧
    (∀ i, i < 512 →
      (ddriver_read posix
        (ddriver_seek posix
          (ddriver_write posix (ddriver_seek posix m fd o SEEK_SET).1 fd b 512).1
          fd o SEEK_SET).1 fd out 512).2.1 i = b i) ∧
    (∀ j, j < m.os.size → ¬ (o ≤ j ∧ j < o + 512) →
      (ddriver_read posix
        (ddriver_seek posix
          (ddriver_write posix (ddriver_seek posix m fd o SEEK_SET).1 fd b 512).1
          fd o SEEK_SET).1 fd out 512).1.os.data j = m.os.data j) ∧
    (o + 512 ≤ m.os.size →
      (ddriver_read posix
        (ddriver_seek posix
          (ddriver_write posix (ddriver_seek posix m fd o SEEK_SET).1 fd b 512).1
          fd o SEEK_SET).1 fd out 512).1.os.size = m.os.size) := by
  unfold CONFIG_DISK_SZ at h1
  have hw := seek_then_write_block m fd o b hfd ha h0 (by unfold OFF_MAX; omega)
  have hr1 : (ddriver_seek posix m fd o SEEK_SET).2 = o := by
    rw [(ddriver_seek_posix m fd o SEEK_SET ha).2.1,
      posix_lseek_set m.os fd o hfd h0 (by unfold OFF_MAX; omega)]
    exact toInt32_of_range o (by omega) (by omega)
  have hr2 : (ddriver_write posix (ddriver_seek posix m fd o SEEK_SET).1 fd b 512).2 = 512 := by
    rw [ddriver_write_block]
  generalize (ddriver_write posix (ddriver_seek posix m fd o SEEK_SET).1 fd b 512).1 = W at hw
  have hfdW : fd = W.os.fd := by rw [hw]; exact hfd
  have hsz : W.os.size = max m.os.size (o + 512) := by rw [hw]
  have hdat : W.os.data = fun j =>
      if o ≤ j ∧ j < o + 512 then b (j - o).toNat
      else if j < m.os.size then m.os.data j
      else 0 := by rw [hw]
  have hs2 := ddriver_seek_posix W fd o SEEK_SET ha
  have hr3 : (ddriver_seek posix W fd o SEEK_SET).2 = o := by
    rw [hs2.2.1, posix_lseek_set W.os fd o hfdW h0 (by unfold OFF_MAX; omega)]
    exact toInt32_of_range o (by omega) (by omega)
  have hos : (ddriver_read posix (ddriver_seek posix W fd o SEEK_SET).1 fd out 512).1.os.data =
        W.os.data ∧
      (ddriver_read posix (ddriver_seek posix W fd o SEEK_SET).1 fd out 512).1.os.size =
        W.os.size := by
    rw [ddriver_read_block]
    show (posix_read (RW_DELAY_read (ddriver_seek posix W fd o SEEK_SET).1).os fd out 512).1.data
        = _ ∧
      (posix_read (RW_DELAY_read (ddriver_seek posix W fd o SEEK_SET).1).os fd out 512).1.size = _
    have hd : (RW_DELAY_read (ddriver_seek posix W fd o SEEK_SET).1).os =
        (ddriver_seek posix W fd o SEEK_SET).1.os := rfl
    rw [hd, (posix_lseek_read_frame _ fd o SEEK_SET out 512).2.1,
      (posix_lseek_read_frame _ fd o SEEK_SET out 512).2.2, hs2.1,
      (posix_lseek_read_frame W.os fd o SEEK_SET out 512).1.1,
      (posix_lseek_read_frame W.os fd o SEEK_SET out 512).1.2]
    exact ⟨rfl, rfl⟩
  refine ⟨⟨hr1, hr2, hr3, ?_⟩, ?_, ?_, ?_⟩
  · rw [ddriver_read_block]
  · intro i hi
    rw [seek_then_read_block W fd o out hfdW ha h0 (by rw [hsz]; omega)
      (by unfold OFF_MAX; omega) i hi, hdat]
    simp only
    rw [if_pos (by omega)]
    congr 1
    omega
  · intro j hj hn
    rw [hos.1, hdat]
    simp only
    rw [if_neg hn, if_pos hj]
  · intro hle
    rw [hos.2, hsz]
    omega

/-- C18 at offset 1024 on a device just opened, with a block of 0x5A: byte 9 read
back is 0x5A. -/
theorem write_read_round_trip_witness :
    ((3 : Int) = (device_opened 3 (fun _ => 0)).os.fd ∧ (1024 : Int) % 512 = 0 ∧
      (0 : Int) ≤ 1024 ∧ (1024 : Int) ≤ CONFIG_DISK_SZ - 512 ∧ 9 < 512) ∧
    (ddriver_read posix
      (ddriver_seek posix
        (ddriver_write posix
          (ddriver_seek posix (device_opened 3 (fun _ => 0)) 3 1024 SEEK_SET).1 3
          (fun _ => 0x5A) 512).1
        3 1024 SEEK_SET).1 3 (fun _ => 0) 512).2.1 9 = (fun _ => 0x5A) 9 :=
  ⟨⟨rfl, by decide, by decide, by decide, by decide⟩,
    (write_read_round_trip (device_opened 3 (fun _ => 0)) 3 1024 (fun _ => 0x5A) (fun _ => 0) rfl
      (by decide) (by decide) (by decide)).2.1 9 (by decide)⟩

/-! ## C19: a seek whose reposition fails -/

/-- The host's `lseek` that fails returns -1 and leaves the file as it was. -/
theorem posix_lseek_neg (s : Store) (fd offset whence : Int)
    (h : (posix_lseek s fd offset whence).2 < 0) :
    posix_lseek s fd offset whence = (s, -1) := by
  simp only [posix_lseek, lseek_to] at h ⊢
  split_ifs at h ⊢ <;> first | rfl | (simp only at h; omega)

/-- An aligned seek whose host `lseek` fails: -1 is returned, `seek_cnt` is counted
up, nothing is slept and the file is as it was. -/
theorem ddriver_seek_of_lseek_neg (m : Machine Store) (fd offset whence : Int)
    (ha : offset % 512 = 0) (h : (posix_lseek m.os fd offset whence).2 < 0) :
    ddriver_seek posix m fd offset whence =
      ({ m with disk := { m.disk with seek_cnt := toInt32 (m.disk.seek_cnt + 1) } }, -1) := by
  have hal := (IS_ADDR_ALIGN_iff offset).mpr ha
  have hl := posix_lseek_neg m.os fd offset whence h
  have h1 : toInt32 (-1) = -1 := by decide
  simp only [ddriver_seek, hal, not_true_eq_false, if_false, INC_SEEKCNT,
    show posix.lseek = posix_lseek from rfl, posix_lseek_cur_state, hl, h1]
  rfl

/-- C19 fails when the counter is at `INT_MAX`: after 2147483647 seeks to offset 0
from a device just opened, the aligned seek to -512 with `SEEK_SET` returns -1
and leaves `seek_cnt = -2147483648`, not one more than the 2147483647 before. -/
theorem failed_seek_counter_wraps :
    (run sample_codes posix (device_opened 3 (fun _ => 0))
      (List.replicate 2147483647 (Op.seek 3 0 SEEK_SET))).disk.seek_cnt = 2147483647 ∧
    (ddriver_seek posix
      (run sample_codes posix (device_opened 3 (fun _ => 0))
        (List.replicate 2147483647 (Op.seek 3 0 SEEK_SET))) 3 (-512) SEEK_SET).2 = -1 ∧
    (ddriver_seek posix
      (run sample_codes posix (device_opened 3 (fun _ => 0))
        (List.replicate 2147483647 (Op.seek 3 0 SEEK_SET))) 3 (-512) SEEK_SET).1.disk.seek_cnt =
      -2147483648 := by
  have h := run_seeks_count sample_codes 3 2147483647 (device_opened 3 (fun _ => 0)) rfl
    (by decide) (by decide)
  generalize run sample_codes posix (device_opened 3 (fun _ => 0))
    (List.replicate 2147483647 (Op.seek 3 0 SEEK_SET)) = m at h
  obtain ⟨hfd, hc⟩ := h
  have hc2 : m.disk.seek_cnt = 2147483647 := by rw [hc]; rfl
  have hl : (posix_lseek m.os 3 (-512) SEEK_SET).2 < 0 := by
    simp only [posix_lseek, lseek_to, hfd, ne_eq, not_true_eq_false, if_false, if_true]
    rw [if_pos (Or.inl (by decide))]
    show (-1 : Int) < 0
    decide
  rw [ddriver_seek_of_lseek_neg m 3 (-512) SEEK_SET (by decide) hl]
  refine ⟨hc2, rfl, ?_⟩
  simp only [hc2]
  rfl

/-- C19 within the range of `int`: for every aligned offset, in every state of
the host model, `ddriver_seek` leaves `seek_cnt` at the `int` value of
`seek_cnt + 1`, which is one more than before for a counter below `INT_MAX`,
whether or not the host's `lseek` succeeds; when that `lseek` returns a negative
value, `ddriver_seek` returns this value (-1), sleeps for no time and leaves
the file, cursor included, as it was. -/
theorem seek_counts_failed_reposition (m : Machine Store) (fd offset whence : Int)
    (ha : offset % 512 = 0) :
    (ddriver_seek posix m fd offset whence).1.disk.seek_cnt = toInt32 (m.disk.seek_cnt + 1) ∧
    (-2147483648 ≤ m.disk.seek_cnt → m.disk.seek_cnt < INT_MAX →
      (ddriver_seek posix m fd offset whence).1.disk.seek_cnt = m.disk.seek_cnt + 1) ∧
    ((posix_lseek m.os fd offset whence).2 < 0 →
      (ddriver_seek posix m fd offset whence).2 = (posix_lseek m.os fd offset whence).2 ∧
      (ddriver_seek posix m fd offset whence).2 = -1 ∧
      (ddriver_seek posix m fd offset whence).1.slept = m.slept ∧
      (ddriver_seek posix m fd offset whence).1.os = m.os ∧
      (ddriver_seek posix m fd offset whence).1.os.pos = m.os.pos) := by
  have hc : (ddriver_seek posix m fd offset whence).1.disk.seek_cnt =
      toInt32 (m.disk.seek_cnt + 1) := by
    rw [(ddriver_seek_posix m fd offset whence ha).2.2]
  refine ⟨hc, ?_, ?_⟩
  · intro h1 h2
    unfold INT_MAX at h2
    rw [hc]
    exact toInt32_of_range _ (by omega) (by omega)
  · intro h
    rw [ddriver_seek_of_lseek_neg m fd offset whence ha h, posix_lseek_neg m.os fd offset whence h]
    exact ⟨rfl, rfl, rfl, rfl, rfl⟩

/-- C19 at the seek to -512 with `SEEK_SET` on a device just opened. -/
theorem seek_counts_failed_reposition_witness :
    ((-512 : Int) % 512 = 0 ∧
      (posix_lseek (device_opened 3 (fun _ => 0)).os 3 (-512) SEEK_SET).2 < 0) ∧
    (ddriver_seek posix (device_opened 3 (fun _ => 0)) 3 (-512) SEEK_SET).2 = -1 ∧
    (ddriver_seek posix (device_opened 3 (fun _ => 0)) 3 (-512) SEEK_SET).1.disk.seek_cnt =
      (device_opened 3 (fun _ => 0)).disk.seek_cnt + 1 :=
  ⟨⟨by decide, by decide⟩,
    ((seek_counts_failed_reposition (device_opened 3 (fun _ => 0)) 3 (-512) SEEK_SET
      (by decide)).2.2 (by decide)).2.1,
    (seek_counts_failed_reposition (device_opened 3 (fun _ => 0)) 3 (-512) SEEK_SET
      (by decide)).2.1 (by decide) (by decide)⟩

end Ddriver
